import Mathlib

set_option maxHeartbeats 1000000

/-!
Verification development for the chunked-upload handling of
django-drf-filepond (django_drf_filepond/uploaders.py, class
FilepondChunkedFileUploader).

The Python source is shallowly embedded below.  Strings are Lean strings
(lists of characters); the byte payload of a chunk is a list of naturals;
the filesystem visible to the uploader (directories created with
os.makedirs, files written through the Django storage backend) and the
database tables (TemporaryUploadChunked rows, TemporaryUpload rows) are an
explicit state record threaded through the three request handlers.
-/

/-- Byte strings: a chunk payload, file contents. -/
abbrev Bytes := List Nat

/-- Model of Python str.startswith: character-list prefix test. -/
def pyStartswith (s pre : String) : Bool := pre.data.isPrefixOf s.data

/-- Model of Python str.endswith: character-list suffix test. -/
def pyEndswith (s suf : String) : Bool := suf.data.isSuffixOf s.data

/-- Model of os.path.join for two components: if the second is absolute it
wins; otherwise the parts are glued with a single separator (none added
when the first part is empty or already ends with a slash). -/
def pyJoin (a b : String) : String :=
  if pyStartswith b "/" then b
  else if a = "" || pyEndswith a "/" then a ++ b
  else a ++ "/" ++ b

/-- Splits a character list at every slash (components may be empty, as in
Python's str.split). -/
def splitSlash : List Char → List Char → List (List Char)
  | [], acc => [acc.reverse]
  | c :: cs, acc =>
    if c = '/' then acc.reverse :: splitSlash cs []
    else splitSlash cs (c :: acc)

/-- Resolves "." and ".." components against a stack, as os.path.normpath
does for an absolute path (".." at the root is dropped). -/
def normStack : List (List Char) → List (List Char) → List (List Char)
  | [], acc => acc.reverse
  | c :: cs, acc =>
    if c = [] || c = ['.'] then normStack cs acc
    else if c = ['.', '.'] then normStack cs acc.tail
    else normStack cs (c :: acc)

/-- Joins path components with slash separators. -/
def joinSlash : List (List Char) → List Char
  | [] => []
  | [c] => c
  | c :: cs => c ++ '/' :: joinSlash cs

/-- Model of os.path.abspath applied to an already-absolute path: it
normalises the path, resolving "." and ".." components.  (The handlers
only ever apply it to os.path.join(base, id) with an absolute storage
base, so the cwd never enters.) -/
def pyAbspath (p : String) : String :=
  ⟨'/' :: joinSlash (normStack (splitSlash p.data []) [])⟩

/-- Truthiness of an optional request header value, as Python's "not x":
absent and empty-string values are falsy, every other string is truthy. -/
def truthy : Option String → Bool
  | none => false
  | some s => s ≠ ""

/-- Numeric value of a decimal digit character. -/
def digitVal (c : Char) : Nat := c.toNat - 48

/-- Decimal value of a non-empty digit string (accumulator form). -/
def digitsValAux : List Char → Nat → Nat
  | [], acc => acc
  | c :: cs, acc => digitsValAux cs (acc * 10 + digitVal c)

/-- Model of Python int(s) on the strings the protocol uses: an optional
minus sign followed by at least one decimal digit; anything else raises
ValueError, modelled as none.  (Python also strips whitespace and accepts
"+" and "_" separators; the handlers never receive such strings.) -/
def pyInt (s : String) : Option Int :=
  match s.data with
  | [] => none
  | '-' :: ds =>
    if ds ≠ [] ∧ ds.all (·.isDigit) then some (-(digitsValAux ds 0 : Int)) else none
  | ds =>
    if ds.all (·.isDigit) then some ((digitsValAux ds 0 : Int)) else none

/-- Row of the TemporaryUploadChunked table: the persisted state of one
in-flight chunked upload. -/
structure TemporaryUploadChunked where
  upload_id : String
  file_id : String
  upload_dir : String
  total_size : Int
  offset : Int
  last_chunk : Nat
  upload_name : String
  upload_complete : Bool
deriving DecidableEq

/-- Row of the TemporaryUpload table as produced by reassembly: the final
artifact (identifiers, client-declared name and the stored bytes). -/
structure TemporaryUpload where
  upload_id : String
  file_id : String
  upload_name : String
  data : Bytes
deriving DecidableEq

/-- The state visible to the uploader: the two database tables, the set of
existing directories and the files on disk (absolute path to contents). -/
structure FpState where
  records : List TemporaryUploadChunked
  dirs : List String
  files : List (String × Bytes)
  finals : List TemporaryUpload
deriving DecidableEq

/-- Database lookup TemporaryUploadChunked.objects.get(upload_id=id). -/
def getRecord (s : FpState) (id : String) : Option TemporaryUploadChunked :=
  s.records.find? (fun t => t.upload_id == id)

/-- Database save of a row (insert, or overwrite the row with this id). -/
def saveRecord (s : FpState) (t : TemporaryUploadChunked) : FpState :=
  { s with records := t :: s.records.filter (fun r => r.upload_id != t.upload_id) }

/-- Database delete of the row with this id (tuc.delete()). -/
def deleteRecord (s : FpState) (id : String) : FpState :=
  { s with records := s.records.filter (fun r => r.upload_id != id) }

/-- Contents of the file at an absolute path, if it exists. -/
def getFile (s : FpState) (p : String) : Option Bytes :=
  (s.files.find? (fun f => f.1 == p)).map (·.2)

/-- Existence test for a file (os.path.exists on a file path). -/
def fileExists (s : FpState) (p : String) : Bool :=
  (getFile s p).isSome

/-- Write of a file through the storage backend (overwrites any previous
entry at the same path). -/
def writeFile (s : FpState) (p : String) (d : Bytes) : FpState :=
  { s with files := (p, d) :: s.files.filter (fun f => f.1 != p) }

/-- Deletion of the file at a path (os.remove). -/
def removeFile (s : FpState) (p : String) : FpState :=
  { s with files := s.files.filter (fun f => f.1 != p) }

/-- Existence test for a directory (os.path.exists on a directory). -/
def dirExists (s : FpState) (p : String) : Bool := s.dirs.contains p

/-- Directory creation (os.makedirs). -/
def addDir (s : FpState) (p : String) : FpState := { s with dirs := p :: s.dirs }

/-- Outcome of a request: the HTTP response class and body the handler
returns, or an uncaught Python exception (e.g. int() on a bad string). -/
inductive UploadOutcome
  | ok (body : String)
  | clientError (msg : String)
  | serverError (msg : String)
  | notFound (msg : String)
  | pyExn (msg : String)
deriving DecidableEq

/-- Payload carried by a PATCH chunk request, after DRF parsing: raw
bytes, a character string (each entry one character, as the handler
measures it with len and stores it through StringIO), or any other
parsed type. -/
inductive FileData
  | bytes (data : Bytes)
  | str (data : Bytes)
  | other
deriving DecidableEq

/-- Model of Python str() on an integer. -/
def intStr (i : Int) : String :=
  if i < 0 then "-" ++ Nat.repr i.natAbs else Nat.repr i.natAbs

/-- Chunk blob file name: '%s_%s' % (file_id, index). -/
def chunkName (fid : String) (i : Nat) : String := fid ++ "_" ++ Nat.repr i

/-- Modelled from the spec: the field defaults of a fresh
TemporaryUploadChunked row come from models.py, which is not part of the
analysed source; per the spec a new record starts with offset 0,
last_chunk 0, upload_name unset and upload_complete false, while
_handle_new_chunk_upload itself fills upload_id, file_id,
upload_dir=upload_id and total_size. -/
def initRecord (uploadId fileId : String) (totalSize : Int) : TemporaryUploadChunked :=
  { upload_id := uploadId, file_id := fileId, upload_dir := uploadId,
    total_size := totalSize, offset := 0, last_chunk := 0,
    upload_name := "", upload_complete := false }

/-- Embedding of FilepondChunkedFileUploader._handle_new_chunk_upload.
Arguments: the storage base location, the state, the parsed upload field
value, the HTTP_UPLOAD_LENGTH header, and the upload/file ids.  Django's
IntegerField coercion of the (string) header on save is modelled by
pyInt; a non-numeric string makes tuc.save() raise, after the chunk
directory was already created. -/
def handleNewChunkUpload (base : String) (s : FpState) (fileObj : String)
    (ulen : Option String) (uploadId fileId : String) : UploadOutcome × FpState :=
  if fileObj ≠ "\x7b\x7d" then
    (.serverError "An invalid file object has been received for a new chunked upload request.", s)
  else if ¬ truthy ulen then
    (.serverError "No length for new chunked upload request.", s)
  else
    let chunkDir := pyAbspath (pyJoin base uploadId)
    if ¬ pyStartswith chunkDir base then
      (.serverError "Unable to create storage for upload data.", s)
    else if dirExists s base then
      if dirExists s chunkDir then
        (.serverError "Unable to prepare storage for upload data.", s)
      else
        let s1 := addDir s chunkDir
        match pyInt (ulen.getD "") with
        | none => (.pyExn "invalid literal for int with base 10", s1)
        | some n => (.ok uploadId, saveRecord s1 (initRecord uploadId fileId n))
    else
      (.serverError "Data storage error occurred.", s)

/-- Reading loop of _store_upload: loads chunk blobs 1..n in ascending
order from the chunk directory, concatenating their bytes; stops at the
first missing blob, reporting its index (FileNotFoundError). -/
def readChunks (s : FpState) (chunkDir fid : String) : Nat → Except Nat Bytes
  | 0 => .ok []
  | n + 1 =>
    match readChunks s chunkDir fid n with
    | .error i => .error i
    | .ok pre =>
      match getFile s (pyJoin chunkDir (chunkName fid (n + 1))) with
      | none => .error (n + 1)
      | some c => .ok (pre ++ c)

/-- Deletion loop of _store_upload: removes chunk blobs 1..n. -/
def deleteChunks (s : FpState) (chunkDir fid : String) : Nat → FpState
  | 0 => s
  | n + 1 => removeFile (deleteChunks s chunkDir fid n) (pyJoin chunkDir (chunkName fid (n + 1)))

/-- Failure modes of _store_upload: ValueError on an incomplete upload,
FileNotFoundError naming the first missing chunk index, and ValueError
when the stored file is absent or of the wrong size. -/
inductive StoreErr
  | incomplete
  | chunkMissing (i : Nat)
  | sizeWrong
deriving DecidableEq

/-- Embedding of FilepondChunkedFileUploader._store_upload.  Returns the
resulting state together with the raised error, if any; effects performed
before the raise (the TemporaryUpload save) persist.  Modelled from the
spec: tu.save() hands the concatenated bytes to the final-artifact store;
the FileField write location (models.py, not part of the analysed source)
is the chunk directory joined with file_id, the path _store_upload then
size-checks. -/
def storeUpload (base : String) (s : FpState) (tuc : TemporaryUploadChunked) :
    FpState × Option StoreErr :=
  if ¬ tuc.upload_complete then (s, some .incomplete)
  else
    let chunkDir := pyJoin base tuc.upload_dir
    match readChunks s chunkDir tuc.file_id tuc.last_chunk with
    | .error i => (s, some (.chunkMissing i))
    | .ok data =>
      let storedPath := pyJoin chunkDir tuc.file_id
      let s1 := { writeFile s storedPath data with
                  finals := { upload_id := tuc.upload_id, file_id := tuc.file_id,
                              upload_name := tuc.upload_name, data := data } :: s.finals }
      match getFile s1 storedPath with
      | none => (s1, some .sizeWrong)
      | some d =>
        if (d.length : Int) ≠ tuc.total_size then (s1, some .sizeWrong)
        else
          let s2 := deleteChunks s1 chunkDir tuc.file_id tuc.last_chunk
          (deleteRecord s2 tuc.upload_id, none)

/-- Embedding of FilepondChunkedFileUploader._handle_chunk_upload.
Arguments: the storage base location, the state, the chunk upload id from
the URL, the HTTP_UPLOAD_OFFSET / HTTP_UPLOAD_LENGTH / HTTP_UPLOAD_NAME
headers and the parsed request body. -/
def handleChunkUpload (base : String) (s : FpState) (chunkId : String)
    (uoffset ulength uname : Option String) (fileData : FileData) :
    UploadOutcome × FpState :=
  if chunkId = "" then
    (.clientError "A required chunk parameter is missing.", s)
  else
    match getRecord s chunkId with
    | none => (.clientError "Invalid chunk upload request data", s)
    | some tuc =>
      -- presence checks are Python truthiness: absent or empty is missing
      match uoffset, ulength, uname with
      | some so, some sl, some nm =>
        if so = "" || sl = "" || nm = "" then
          (.clientError "Chunk upload is missing required metadata", s)
        else
          match pyInt sl with
          | none => (.pyExn "invalid literal for int with base 10", s)
          | some l =>
            if l ≠ tuc.total_size then
              (.clientError "ERROR: Upload metadata is invalid - size changed", s)
            else if tuc.last_chunk != 0 && tuc.upload_name != nm then
              (.clientError "Chunk upload file metadata is invalid", s)
            else
              -- on the first chunk the in-memory object adopts the name;
              -- it is persisted only by the tuc.save() further down
              let tuc1 := if tuc.last_chunk = 0 then { tuc with upload_name := nm } else tuc
              match pyInt so with
              | none => (.pyExn "invalid literal for int with base 10", s)
              | some o =>
                if o ≠ tuc.offset then
                  (.clientError "ERROR: Chunked upload metadata is invalid.", s)
                else
                  match fileData with
                  | .other => (.clientError "Upload data type not recognised.", s)
                  | .bytes bs => handleChunkSave base s chunkId tuc1 bs
                  | .str bs => handleChunkSave base s chunkId tuc1 bs
      | _, _, _ => (.clientError "Chunk upload is missing required metadata", s)
  where
    /-- Tail of _handle_chunk_upload after the metadata checks: write the
    blob, advance the record, and reassemble when complete. -/
    handleChunkSave (base : String) (s : FpState) (chunkId : String)
        (tuc1 : TemporaryUploadChunked) (bs : Bytes) : UploadOutcome × FpState :=
      let uploadDir := pyJoin base tuc1.upload_dir
      let uploadFile := pyJoin tuc1.upload_dir (chunkName tuc1.file_id (tuc1.last_chunk + 1))
      if ¬ dirExists s uploadDir then
        (.serverError "Chunk storage location error", s)
      else
        let s1 := writeFile s (pyJoin base uploadFile) bs
        let tuc2 := { tuc1 with last_chunk := tuc1.last_chunk + 1,
                                offset := tuc1.offset + (bs.length : Int) }
        let tuc3 := if tuc2.offset = tuc2.total_size
                    then { tuc2 with upload_complete := true } else tuc2
        let s2 := saveRecord s1 tuc3
        if tuc3.upload_complete then
          match storeUpload base s2 tuc3 with
          | (s3, none) => (.ok chunkId, s3)
          | (s3, some _) => (.serverError "Error storing uploaded file.", s3)
        else
          (.ok chunkId, s2)

/-- Embedding of FilepondChunkedFileUploader._handle_chunk_restart.  The
middle component is the Upload-Offset response header. -/
def handleChunkRestart (base : String) (s : FpState) (uploadId : String) :
    UploadOutcome × Option String × FpState :=
  match getRecord s uploadId with
  | none => (.notFound "Invalid upload ID specified.", none, s)
  | some tuc =>
    if ¬ dirExists s (pyJoin base tuc.upload_dir) then
      (.serverError "Invalid upload location, cannot continue upload.", none, s)
    else
      (.ok uploadId, some (intStr tuc.offset), s)

/-- Example state: empty tables, storage base location "/data" existing. -/
def exState0 : FpState := { records := [], dirs := ["/data"], files := [], finals := [] }

/-- Example state: empty tables, storage base location "/data/store" existing. -/
def exStateStore : FpState :=
  { records := [], dirs := ["/data/store"], files := [], finals := [] }

/-- Example record already marked complete (left behind by a reassembly
failure) whose offset no longer matches the chunk data on disk. -/
def exRecC5 : TemporaryUploadChunked :=
  { upload_id := "u1", file_id := "f1", upload_dir := "u1", total_size := 2,
    offset := 5, last_chunk := 1, upload_name := "a", upload_complete := true }

/-- Example state holding exRecC5 and one chunk blob. -/
def exStateC5 : FpState :=
  { records := [exRecC5], dirs := ["/data", "/data/u1"],
    files := [("/data/u1/f1_1", [9])], finals := [] }

/-- Example state holding one fresh record for upload "u1" (total size 2)
with its chunk directory in place. -/
def exStateRec : FpState :=
  { records := [initRecord "u1" "f1" 2], dirs := ["/data", "/data/u1"],
    files := [], finals := [] }

/-- One appendChunk request: the three metadata headers and the payload. -/
structure AppendReq where
  uoffset : Option String
  ulength : Option String
  uname : Option String
  data : FileData

/-- State after an appendChunk request (the response is discarded). -/
def appendStep (base id : String) (s : FpState) (r : AppendReq) : FpState :=
  (handleChunkUpload base s id r.uoffset r.ulength r.uname r.data).2

/-- State after a sequence of appendChunk requests for one upload id. -/
def runAppends (base id : String) : List AppendReq → FpState → FpState
  | [], s => s
  | r :: rs, s => runAppends base id rs (appendStep base id s r)

/-- Payload length as the handler measures it with len(file_data); an
unrecognised payload never reaches the save path. -/
def dataLen : FileData → Nat
  | .bytes bs => bs.length
  | .str bs => bs.length
  | .other => 0

/-- The invariant the spec asserts for every reachable UploadRecord. -/
def RecInv (t : TemporaryUploadChunked) : Prop :=
  0 ≤ t.offset ∧ t.offset ≤ t.total_size
    ∧ (t.upload_complete = true ↔ t.offset = t.total_size)

/-- Well-formed chunk-request sequence for the end-to-end claim: starting
at offset off, each request claims the running offset, the constant
declared total size and file name, and carries a non-empty bytes
payload. -/
inductive GoodSeq (total : Int) (nm : String) : Int → List AppendReq → List Bytes → Prop
  | nil (off : Int) : GoodSeq total nm off [] []
  | cons (off : Int) (r : AppendReq) (rs : List AppendReq) (bs : Bytes) (bss : List Bytes)
      (hdata : r.data = .bytes bs) (hbs : bs ≠ [])
      (hoff : ∃ so, r.uoffset = some so ∧ so ≠ "" ∧ pyInt so = some off)
      (hlen : ∃ sl, r.ulength = some sl ∧ sl ≠ "" ∧ pyInt sl = some total)
      (hnm : r.uname = some nm) (hnm2 : nm ≠ "")
      (hrest : GoodSeq total nm (off + (bs.length : Int)) rs bss) :
      GoodSeq total nm off (r :: rs) (bs :: bss)

/-! ### Decimal representation: Nat.repr is injective -/

/-- Specification of the decimal digit list of a natural number (most
significant digit first), used to reason about Nat.toDigitsCore. -/
def natDigits (n : Nat) : List Char :=
  if h : n < 10 then [Nat.digitChar n]
  else natDigits (n / 10) ++ [Nat.digitChar (n % 10)]
decreasing_by exact Nat.div_lt_self (by omega) (by omega)

theorem toDigitsCore_eq_natDigits :
    ∀ (fuel n : Nat) (ds : List Char), n < fuel →
      Nat.toDigitsCore 10 fuel n ds = natDigits n ++ ds := by
  intro fuel
  induction fuel with
  | zero => intro n ds h; omega
  | succ f ih =>
    intro n ds h
    rw [Nat.toDigitsCore]
    by_cases h10 : n / 10 = 0
    · have hn : n < 10 := by omega
      rw [natDigits, dif_pos hn]
      have : n % 10 = n := by omega
      simp [h10, this]
    · have hlt : n / 10 < f := by
        have h1 : n / 10 < n := Nat.div_lt_self (by omega) (by omega)
        omega
      rw [if_neg h10, ih (n / 10) (Nat.digitChar (n % 10) :: ds) hlt]
      have hexp : natDigits n = natDigits (n / 10) ++ [Nat.digitChar (n % 10)] := by
        rw [natDigits]
        exact dif_neg (by omega)
      rw [hexp]
      simp

theorem natDigits_val : ∀ n : Nat, digitsValAux (natDigits n) 0 = n := by
  have hsnoc : ∀ (l : List Char) (c : Char) (a : Nat),
      digitsValAux (l ++ [c]) a = digitsValAux l a * 10 + digitVal c := by
    intro l
    induction l with
    | nil => intro c a; simp [digitsValAux]
    | cons x l ih => intro c a; simp [digitsValAux, ih]
  have hdig : ∀ d : Nat, d < 10 → digitVal (Nat.digitChar d) = d := by decide
  intro n
  induction n using Nat.strong_induction_on with
  | _ n ih =>
    by_cases h : n < 10
    · rw [natDigits, dif_pos h]
      simp [digitsValAux, hdig n h]
    · rw [natDigits, dif_neg h, hsnoc]
      rw [ih (n / 10) (Nat.div_lt_self (by omega) (by omega))]
      rw [hdig (n % 10) (by omega)]
      omega

theorem natRepr_inj {m n : Nat} (h : Nat.repr m = Nat.repr n) : m = n := by
  have hm : Nat.repr m = (⟨natDigits m⟩ : String) := by
    show (Nat.toDigits 10 m).asString = _
    rw [Nat.toDigits, toDigitsCore_eq_natDigits (m + 1) m [] (by omega)]
    simp [List.asString]
  have hn : Nat.repr n = (⟨natDigits n⟩ : String) := by
    show (Nat.toDigits 10 n).asString = _
    rw [Nat.toDigits, toDigitsCore_eq_natDigits (n + 1) n [] (by omega)]
    simp [List.asString]
  rw [hm, hn] at h
  have hd : natDigits m = natDigits n := congrArg String.data h
  calc m = digitsValAux (natDigits m) 0 := (natDigits_val m).symm
    _ = digitsValAux (natDigits n) 0 := by rw [hd]
    _ = n := natDigits_val n

/-! ### String and path lemmas -/

theorem str_append_left_cancel {a b c : String} (h : a ++ b = a ++ c) : b = c := by
  apply String.ext
  have hd : a.data ++ b.data = a.data ++ c.data := by
    have := congrArg String.data h
    simpa using this
  exact List.append_cancel_left hd

theorem str_append_ne_nil_right {a b : String} (hb : b ≠ "") : a ++ b ≠ "" := by
  intro h
  apply hb
  apply String.ext
  have := congrArg String.data h
  simp only [String.data_append] at this
  have : b.data = [] := (List.append_eq_nil.mp this).2
  simpa [String.ext_iff] using this

theorem pyStartswith_slash_cons {c : Char} {cs : List Char} :
    pyStartswith ⟨c :: cs⟩ "/" = (c = '/' : Bool) := by
  show List.isPrefixOf ['/'] (c :: cs) = _
  by_cases hc : c = '/'
  · subst hc
    simp [List.isPrefixOf]
  · have h1 : ('/' == c) = false := by
      simp only [beq_eq_false_iff_ne, ne_eq]
      exact fun h => hc h.symm
    simp [List.isPrefixOf, h1, hc]

theorem pyStartswith_slash_append {a b : String}
    (ha : pyStartswith a "/" = false) (hb : pyStartswith b "/" = false) :
    pyStartswith (a ++ b) "/" = false := by
  rcases hda : a.data with _ | ⟨c, cs⟩
  · have hab : (a ++ b).data = b.data := by simp [hda]
    show List.isPrefixOf "/".data (a ++ b).data = false
    rw [hab]
    exact hb
  · have hab : (a ++ b).data = c :: (cs ++ b.data) := by simp [hda]
    show pyStartswith ⟨(a ++ b).data⟩ "/" = false
    rw [hab, pyStartswith_slash_cons]
    have : pyStartswith ⟨a.data⟩ "/" = false := ha
    rw [hda, pyStartswith_slash_cons] at this
    exact this

theorem pyEndswith_slash_append {a b : String} (hb : b ≠ "") :
    pyEndswith (a ++ b) "/" = pyEndswith b "/" := by
  show List.isSuffixOf "/".data (a ++ b).data = List.isSuffixOf "/".data b.data
  rcases hdb : b.data.reverse with _ | ⟨c, cs⟩
  · exfalso
    apply hb
    apply String.ext
    simpa [String.ext_iff] using List.reverse_eq_nil_iff.mp hdb
  · simp only [List.isSuffixOf, String.data_append, List.reverse_append, hdb]
    simp [List.isPrefixOf]

theorem digitChar_ne_slash (d : Nat) : Nat.digitChar d ≠ '/' := by
  by_cases h : d < 16
  · have hall : ∀ e : Nat, e < 16 → Nat.digitChar e ≠ '/' := by decide
    exact hall d h
  · have hne : ∀ k : Nat, k < 16 → (d = k) = False := by
      intro k hk
      simp only [eq_iff_iff, iff_false]
      omega
    unfold Nat.digitChar
    simp [hne]

theorem natDigits_startswith : ∀ n : Nat, List.isPrefixOf ['/'] (natDigits n) = false := by
  intro n
  induction n using Nat.strong_induction_on with
  | _ n ih =>
    by_cases h : n < 10
    · rw [natDigits, dif_pos h]
      have h1 : ('/' == Nat.digitChar n) = false := by
        simp only [beq_eq_false_iff_ne, ne_eq]
        exact fun hh => digitChar_ne_slash n hh.symm
      simp [List.isPrefixOf, h1]
    · rw [natDigits, dif_neg h]
      have hih := ih (n / 10) (Nat.div_lt_self (by omega) (by omega))
      rcases hD : natDigits (n / 10) with _ | ⟨c, cs⟩
      · rw [natDigits] at hD
        split at hD <;> simp_all
      · rw [hD] at hih
        simp only [List.cons_append]
        simp [List.isPrefixOf] at hih ⊢
        exact hih

theorem natRepr_data (n : Nat) : Nat.repr n = (⟨natDigits n⟩ : String) := by
  show (Nat.toDigits 10 n).asString = _
  rw [Nat.toDigits, toDigitsCore_eq_natDigits (n + 1) n [] (by omega)]
  simp [List.asString]

theorem pyStartswith_repr_slash (n : Nat) : pyStartswith (Nat.repr n) "/" = false := by
  rw [natRepr_data]
  show List.isPrefixOf "/".data (natDigits n) = false
  exact natDigits_startswith n

theorem pyStartswith_chunkName {fid : String} (h : pyStartswith fid "/" = false) (k : Nat) :
    pyStartswith (chunkName fid k) "/" = false := by
  unfold chunkName
  apply pyStartswith_slash_append
  · exact pyStartswith_slash_append h (by decide)
  · exact pyStartswith_repr_slash k

theorem chunkName_ne_nil (fid : String) (k : Nat) : chunkName fid k ≠ "" := by
  unfold chunkName
  apply str_append_ne_nil_right
  rw [natRepr_data]
  intro h
  have hd := congrArg String.data h
  rcases hn : natDigits k with _ | _
  · rw [natDigits] at hn
    split at hn <;> simp_all
  · simp_all

theorem natRepr_ne_nil (n : Nat) : Nat.repr n ≠ "" := by
  rw [natRepr_data]
  intro h
  have hd := congrArg String.data h
  rcases hn : natDigits n with _ | _
  · rw [natDigits] at hn
    split at hn <;> simp_all
  · simp_all

theorem pyStartswith_slash_append_left {a b : String}
    (ha : pyStartswith a "/" = false) (hane : a ≠ "") :
    pyStartswith (a ++ b) "/" = false := by
  rcases hda : a.data with _ | ⟨c, cs⟩
  · exact absurd (String.ext hda) hane
  · have hab : (a ++ b).data = c :: (cs ++ b.data) := by simp [hda]
    show pyStartswith ⟨(a ++ b).data⟩ "/" = false
    rw [hab, pyStartswith_slash_cons]
    have : pyStartswith ⟨a.data⟩ "/" = false := ha
    rw [hda, pyStartswith_slash_cons] at this
    exact this

/-- Branch lemma for pyJoin: non-absolute second part, separator needed. -/
theorem pyJoin_sep {a b : String} (hb : pyStartswith b "/" = false)
    (ha : (a = "" || pyEndswith a "/") = false) : pyJoin a b = a ++ "/" ++ b := by
  unfold pyJoin
  simp [hb, ha]

/-- Branch lemma for pyJoin: non-absolute second part, no separator added. -/
theorem pyJoin_nosep {a b : String} (hb : pyStartswith b "/" = false)
    (ha : (a = "" || pyEndswith a "/") = true) : pyJoin a b = a ++ b := by
  unfold pyJoin
  simp [hb, ha]

theorem pyJoin_assoc {a b c : String}
    (hb : pyStartswith b "/" = false) (hbne : b ≠ "") (hc : pyStartswith c "/" = false) :
    pyJoin a (pyJoin b c) = pyJoin (pyJoin a b) c := by
  have habne : a ++ b ≠ "" := str_append_ne_nil_right hbne
  have hasbne : a ++ "/" ++ b ≠ "" := str_append_ne_nil_right hbne
  by_cases hbe : pyEndswith b "/" = true
  · have hbcond : (b = "" || pyEndswith b "/") = true := by simp [hbe]
    have hInnerEq : pyJoin b c = b ++ c := pyJoin_nosep hc hbcond
    have hbcs : pyStartswith (b ++ c) "/" = false := pyStartswith_slash_append_left hb hbne
    by_cases hae : (a = "" || pyEndswith a "/") = true
    · rw [hInnerEq, pyJoin_nosep hbcs hae, pyJoin_nosep hb hae,
        pyJoin_nosep hc (by simp [pyEndswith_slash_append hbne (a := a), hbe])]
      simp [String.append_assoc]
    · have hae' : (a = "" || pyEndswith a "/") = false := by
        simpa using hae
      rw [hInnerEq, pyJoin_sep hbcs hae', pyJoin_sep hb hae',
        pyJoin_nosep hc (by
          have : pyEndswith (a ++ "/" ++ b) "/" = pyEndswith b "/" :=
            pyEndswith_slash_append hbne (a := a ++ "/")
          simp [this, hbe])]
      simp [String.append_assoc]
  · have hbe' : pyEndswith b "/" = false := by simpa using hbe
    have hbcond : (b = "" || pyEndswith b "/") = false := by simp [hbne, hbe']
    have hInnerEq : pyJoin b c = b ++ "/" ++ c := pyJoin_sep hc hbcond
    have hbcs : pyStartswith (b ++ "/" ++ c) "/" = false := by
      rw [String.append_assoc]
      exact pyStartswith_slash_append_left hb hbne
    by_cases hae : (a = "" || pyEndswith a "/") = true
    · rw [hInnerEq, pyJoin_nosep hbcs hae, pyJoin_nosep hb hae,
        pyJoin_sep hc (by simp [pyEndswith_slash_append hbne (a := a), hbe', habne])]
      simp [String.append_assoc]
    · have hae' : (a = "" || pyEndswith a "/") = false := by
        simpa using hae
      rw [hInnerEq, pyJoin_sep hbcs hae', pyJoin_sep hb hae',
        pyJoin_sep hc (by
          have h1 : pyEndswith (a ++ "/" ++ b) "/" = pyEndswith b "/" :=
            pyEndswith_slash_append hbne (a := a ++ "/")
          simp [h1, hbe', hasbne])]
      simp [String.append_assoc]

theorem pyJoin_right_inj {q c1 c2 : String}
    (h1 : pyStartswith c1 "/" = false) (h2 : pyStartswith c2 "/" = false)
    (h : pyJoin q c1 = pyJoin q c2) : c1 = c2 := by
  by_cases hq : (q = "" || pyEndswith q "/") = true
  · rw [pyJoin_nosep h1 hq, pyJoin_nosep h2 hq] at h
    exact str_append_left_cancel h
  · have hq' : (q = "" || pyEndswith q "/") = false := by simpa using hq
    rw [pyJoin_sep h1 hq', pyJoin_sep h2 hq'] at h
    exact str_append_left_cancel h
theorem chunkName_inj {fid : String} {i j : Nat} (h : chunkName fid i = chunkName fid j) :
    i = j := by
  unfold chunkName at h
  exact natRepr_inj (str_append_left_cancel h)

theorem chunkName_ne_fid (fid : String) (i : Nat) : chunkName fid i ≠ fid := by
  unfold chunkName
  intro h
  rw [String.append_assoc] at h
  have h0 : fid ++ ("_" ++ Nat.repr i) = fid ++ "" := by
    rw [h, String.append_empty]
  have h1 := str_append_left_cancel h0
  exact str_append_ne_nil_right (natRepr_ne_nil i) h1

/-! ### State lookup lemmas -/

theorem find?_filter_key {α : Type} (key : α → String) {p q : String} (h : q ≠ p) :
    ∀ l : List α, (l.filter (fun x => key x != p)).find? (fun x => key x == q)
      = l.find? (fun x => key x == q) := by
  intro l
  induction l with
  | nil => rfl
  | cons a l ih =>
    by_cases ha : key a = p
    · have h1 : (key a != p) = false := by simp [ha]
      have h2 : (key a == q) = false := by simp [ha, Ne.symm h]
      rw [List.filter_cons, h1]
      simp only [Bool.false_eq_true, if_false]
      rw [ih, List.find?_cons_of_neg _ (by simp [h2])]
    · have h1 : (key a != p) = true := by simp [ha]
      rw [List.filter_cons, h1]
      simp only [if_true]
      by_cases h2 : key a = q
      · rw [List.find?_cons_of_pos _ (by simp [h2]), List.find?_cons_of_pos _ (by simp [h2])]
      · rw [List.find?_cons_of_neg _ (by simp [h2]), List.find?_cons_of_neg _ (by simp [h2]), ih]

theorem find?_filter_key_self {α : Type} (key : α → String) (p : String) :
    ∀ l : List α, (l.filter (fun x => key x != p)).find? (fun x => key x == p) = none := by
  intro l
  induction l with
  | nil => rfl
  | cons a l ih =>
    by_cases ha : key a = p
    · have h1 : (key a != p) = false := by simp [ha]
      rw [List.filter_cons, h1]
      simpa using ih
    · have h1 : (key a != p) = true := by simp [ha]
      rw [List.filter_cons, h1]
      simp only [if_true]
      rw [List.find?_cons_of_neg _ (by simp [ha]), ih]

@[simp] theorem getRecord_writeFile (s : FpState) (p : String) (d : Bytes) (id : String) :
    getRecord (writeFile s p d) id = getRecord s id := rfl

@[simp] theorem getRecord_removeFile (s : FpState) (p : String) (id : String) :
    getRecord (removeFile s p) id = getRecord s id := rfl

@[simp] theorem getRecord_addDir (s : FpState) (p : String) (id : String) :
    getRecord (addDir s p) id = getRecord s id := rfl

@[simp] theorem getFile_saveRecord (s : FpState) (t : TemporaryUploadChunked) (p : String) :
    getFile (saveRecord s t) p = getFile s p := rfl

@[simp] theorem getFile_deleteRecord (s : FpState) (id : String) (p : String) :
    getFile (deleteRecord s id) p = getFile s p := rfl

@[simp] theorem getFile_addDir (s : FpState) (q : String) (p : String) :
    getFile (addDir s q) p = getFile s p := rfl

@[simp] theorem dirExists_writeFile (s : FpState) (p : String) (d : Bytes) (q : String) :
    dirExists (writeFile s p d) q = dirExists s q := rfl

@[simp] theorem dirExists_removeFile (s : FpState) (p : String) (q : String) :
    dirExists (removeFile s p) q = dirExists s q := rfl

@[simp] theorem dirExists_saveRecord (s : FpState) (t : TemporaryUploadChunked) (q : String) :
    dirExists (saveRecord s t) q = dirExists s q := rfl

@[simp] theorem dirExists_deleteRecord (s : FpState) (id : String) (q : String) :
    dirExists (deleteRecord s id) q = dirExists s q := rfl

@[simp] theorem finals_writeFile (s : FpState) (p : String) (d : Bytes) :
    (writeFile s p d).finals = s.finals := rfl

@[simp] theorem finals_removeFile (s : FpState) (p : String) :
    (removeFile s p).finals = s.finals := rfl

@[simp] theorem finals_saveRecord (s : FpState) (t : TemporaryUploadChunked) :
    (saveRecord s t).finals = s.finals := rfl

@[simp] theorem finals_deleteRecord (s : FpState) (id : String) :
    (deleteRecord s id).finals = s.finals := rfl

@[simp] theorem finals_addDir (s : FpState) (p : String) :
    (addDir s p).finals = s.finals := rfl

@[simp] theorem records_writeFile (s : FpState) (p : String) (d : Bytes) :
    (writeFile s p d).records = s.records := rfl

@[simp] theorem records_removeFile (s : FpState) (p : String) :
    (removeFile s p).records = s.records := rfl

theorem getRecord_some_id {s : FpState} {id : String} {t : TemporaryUploadChunked}
    (h : getRecord s id = some t) : t.upload_id = id := by
  have := List.find?_some h
  simpa using this

theorem getRecord_saveRecord_self (s : FpState) (t : TemporaryUploadChunked) :
    getRecord (saveRecord s t) t.upload_id = some t := by
  unfold getRecord saveRecord
  rw [List.find?_cons_of_pos _ (by simp)]

theorem getRecord_saveRecord_ne {id : String} (s : FpState) (t : TemporaryUploadChunked)
    (h : id ≠ t.upload_id) : getRecord (saveRecord s t) id = getRecord s id := by
  unfold getRecord saveRecord
  rw [List.find?_cons_of_neg _ (by simp [Ne.symm h])]
  exact find?_filter_key (fun r : TemporaryUploadChunked => r.upload_id) h _

theorem getRecord_deleteRecord_self (s : FpState) (id : String) :
    getRecord (deleteRecord s id) id = none := by
  unfold getRecord deleteRecord
  exact find?_filter_key_self (fun r : TemporaryUploadChunked => r.upload_id) id _

theorem getRecord_deleteRecord_ne {id id2 : String} (s : FpState) (h : id2 ≠ id) :
    getRecord (deleteRecord s id) id2 = getRecord s id2 := by
  unfold getRecord deleteRecord
  exact find?_filter_key (fun r : TemporaryUploadChunked => r.upload_id) h _

theorem getFile_writeFile_self (s : FpState) (p : String) (d : Bytes) :
    getFile (writeFile s p d) p = some d := by
  unfold getFile writeFile
  rw [List.find?_cons_of_pos _ (by simp)]
  rfl

theorem getFile_writeFile_ne {q p : String} (s : FpState) (d : Bytes) (h : q ≠ p) :
    getFile (writeFile s p d) q = getFile s q := by
  unfold getFile writeFile
  rw [List.find?_cons_of_neg _ (by simp [Ne.symm h])]
  rw [find?_filter_key (fun f : String × Bytes => f.1) h s.files]

theorem getFile_removeFile_self (s : FpState) (p : String) :
    getFile (removeFile s p) p = none := by
  show Option.map (fun x => x.2)
    (List.find? (fun f => f.1 == p) (List.filter (fun f => f.1 != p) s.files)) = none
  rw [find?_filter_key_self (fun f : String × Bytes => f.1) p s.files]
  rfl

theorem getFile_removeFile_ne {q p : String} (s : FpState) (h : q ≠ p) :
    getFile (removeFile s p) q = getFile s q := by
  show Option.map (fun x => x.2)
    (List.find? (fun f => f.1 == q) (List.filter (fun f => f.1 != p) s.files))
    = Option.map (fun x => x.2) (List.find? (fun f => f.1 == q) s.files)
  rw [find?_filter_key (fun f : String × Bytes => f.1) h s.files]

/-! ### Claim C4 (code bug): the path-traversal guard -/

/-- C4: the spec claims every upload_id whose resolved absolute path
escapes the base storage root is rejected by initiate, including ids
resolving to sibling paths that merely share the root's string prefix.
The code checks chunk_dir.startswith(base_loc) on the canonicalised path
without a trailing separator, so with root "/data/store" the id
"../storeX" resolves to "/data/storeX" — a sibling outside the root that
shares its string prefix — passes the guard, the sibling directory is
created and the UploadRecord is persisted. -/
theorem C4_traversal_guard_bypassed :
    pyAbspath (pyJoin "/data/store" "../storeX") = "/data/storeX"
    ∧ "/data/storeX" ≠ "/data/store"
    ∧ pyStartswith "/data/storeX" ("/data/store" ++ "/") = false
    ∧ (handleNewChunkUpload "/data/store" exStateStore "\x7b\x7d" (some "5")
        "../storeX" "f1").1 = .ok "../storeX"
    ∧ getRecord (handleNewChunkUpload "/data/store" exStateStore "\x7b\x7d" (some "5")
        "../storeX" "f1").2 "../storeX" = some (initRecord "../storeX" "f1" 5)
    ∧ dirExists (handleNewChunkUpload "/data/store" exStateStore "\x7b\x7d" (some "5")
        "../storeX" "f1").2 "/data/storeX" = true := by
  decide

/-- C9 counterexample: initiate succeeds for the declared total size "0",
which is not strictly greater than 0, and persists an UploadRecord with
total_size 0 — the header check is Python truthiness on the raw string,
and the non-empty string "0" is truthy. -/
theorem C9_counterexample :
    (handleNewChunkUpload "/data" exState0 "\x7b\x7d" (some "0") "u1" "f1").1 = .ok "u1"
    ∧ getRecord (handleNewChunkUpload "/data" exState0 "\x7b\x7d" (some "0")
        "u1" "f1").2 "u1" = some (initRecord "u1" "f1" 0)
    ∧ ¬ ((0 : Int) > 0) := by
  decide

/-- C3 counterexample: a record created by initiate (declared size 1) and
mutated by one successful appendChunk call carrying a 2-byte payload ends
with offset 2 and total_size 1, violating the claimed invariant
offset ≤ total_size — the handler never checks that a chunk fits in the
declared size. -/
theorem C3_counterexample :
    (handleChunkUpload "/data"
        (handleNewChunkUpload "/data" exState0 "\x7b\x7d" (some "1") "u1" "f1").2
        "u1" (some "0") (some "1") (some "a") (.bytes [0, 0])).1 = .ok "u1"
    ∧ getRecord (handleChunkUpload "/data"
        (handleNewChunkUpload "/data" exState0 "\x7b\x7d" (some "1") "u1" "f1").2
        "u1" (some "0") (some "1") (some "a") (.bytes [0, 0])).2 "u1"
      = some { upload_id := "u1", file_id := "f1", upload_dir := "u1", total_size := 1,
               offset := 2, last_chunk := 1, upload_name := "a", upload_complete := false }
    ∧ ¬ ((2 : Int) ≤ (1 : Int)) := by
  decide

/-- C5 counterexample: on a record already marked upload_complete (as left
behind by a failed reassembly), a successful appendChunk call whose new
offset (6) differs from total_size (2) still invokes reassembly — the
record is deleted and a final artifact is produced — because the handler
dispatches reassembly on the persisted upload_complete flag, not on the
new offset reaching total_size. -/
theorem C5_counterexample :
    (handleChunkUpload "/data" exStateC5 "u1" (some "5") (some "2") (some "a")
        (.bytes [7])).1 = .ok "u1"
    ∧ (handleChunkUpload "/data" exStateC5 "u1" (some "5") (some "2") (some "a")
        (.bytes [7])).2.finals
      = [{ upload_id := "u1", file_id := "f1", upload_name := "a", data := [9, 7] }]
    ∧ getRecord (handleChunkUpload "/data" exStateC5 "u1" (some "5") (some "2") (some "a")
        (.bytes [7])).2 "u1" = none
    ∧ (5 : Int) + 1 ≠ 2 := by
  decide

/-! ### Claim C2: client-metadata failures have no observable effect -/

theorem handleChunkSave_no_client (base : String) (s : FpState) (cid : String)
    (t1 : TemporaryUploadChunked) (bs : Bytes) (m : String) (s2 : FpState)
    (h : handleChunkUpload.handleChunkSave base s cid t1 bs = (.clientError m, s2)) :
    False := by
  unfold handleChunkUpload.handleChunkSave at h
  simp only [] at h
  repeat' split at h
  all_goals (injection h with h1 h2; exact absurd h1 (by simp))

/-- C2: every appendChunk call that fails with a client-metadata violation
(empty chunk id, unknown upload id, missing metadata, size mismatch, name
mismatch, offset mismatch, or unrecognised payload type — exactly the
outcomes reported with a client-error response) leaves the whole state
unchanged: the stored UploadRecord keeps its offset, last_chunk,
upload_name and upload_complete, and no chunk blob is written. -/
theorem C2_client_failure_no_effect (base : String) (s : FpState) (chunkId : String)
    (uoffset ulength uname : Option String) (fd : FileData) (m : String) (s2 : FpState)
    (h : handleChunkUpload base s chunkId uoffset ulength uname fd = (.clientError m, s2)) :
    s2 = s := by
  unfold handleChunkUpload at h
  simp only [] at h
  repeat' split at h
  all_goals try (exact absurd h (fun hh => handleChunkSave_no_client _ _ _ _ _ _ _ hh))
  all_goals (injection h with h1 h2)
  all_goals exact h2.symm

/-- C10: an appendChunk request in which the claimed offset, total size or
name header is present but equal to the empty string is rejected as
missing metadata — presence is decided by Python truthiness, so an
empty-string value counts as absent — and the state is unchanged. -/
theorem C10_empty_metadata_is_missing (base : String) (s : FpState) (chunkId : String)
    (uoffset ulength uname : Option String) (fd : FileData) (t : TemporaryUploadChunked)
    (hcid : chunkId ≠ "") (hrec : getRecord s chunkId = some t)
    (hempty : uoffset = some "" ∨ ulength = some "" ∨ uname = some "") :
    handleChunkUpload base s chunkId uoffset ulength uname fd
      = (.clientError "Chunk upload is missing required metadata", s) := by
  rcases hempty with he | he | he
  all_goals subst he
  · rcases ulength with _ | sl <;> rcases uname with _ | nm <;>
      simp [handleChunkUpload, hcid, hrec]
  · rcases uoffset with _ | so <;> rcases uname with _ | nm <;>
      simp [handleChunkUpload, hcid, hrec]
  · rcases uoffset with _ | so <;> rcases ulength with _ | sl <;>
      simp [handleChunkUpload, hcid, hrec]

/-- C6: an appendChunk call whose claimed total size parses to an integer
different from the stored total_size fails with the size-changed error and
leaves the state unchanged, for every claimed offset and name string
(truthy but otherwise arbitrary, even unparseable or mismatching) — the
size check is decided before the name and offset checks. -/
theorem C6_size_checked_first (base : String) (s : FpState) (chunkId : String)
    (so sl nm : String) (fd : FileData) (t : TemporaryUploadChunked) (L : Int)
    (hcid : chunkId ≠ "") (hrec : getRecord s chunkId = some t)
    (hso : so ≠ "") (hsl : sl ≠ "") (hnm : nm ≠ "")
    (hparse : pyInt sl = some L) (hne : L ≠ t.total_size) :
    handleChunkUpload base s chunkId (some so) (some sl) (some nm) fd
      = (.clientError "ERROR: Upload metadata is invalid - size changed", s) := by
  simp [handleChunkUpload, hcid, hrec, hso, hsl, hnm, hparse, hne]

/-- C9 amended: initiate succeeds only when the declared total size header
is present and non-empty (truthiness of the raw string — so "0" or a
negative value is accepted even though not greater than 0), and on every
initiate failure no UploadRecord is persisted. -/
theorem C9_initiate_success_and_failure (base : String) (s : FpState) (fileObj : String)
    (ulen : Option String) (uploadId fileId : String) (r : UploadOutcome) (s2 : FpState)
    (h : handleNewChunkUpload base s fileObj ulen uploadId fileId = (r, s2)) :
    (r = .ok uploadId → truthy ulen = true)
    ∧ (r ≠ .ok uploadId → s2.records = s.records) := by
  unfold handleNewChunkUpload at h
  simp only [] at h
  repeat' split at h
  all_goals (injection h with h1 h2; subst h1; subst h2)
  all_goals constructor
  all_goals intro hh
  all_goals simp_all [addDir, saveRecord]

theorem C2_client_failure_no_effect_witness :
    (handleChunkUpload "/data" exState0 "zz" none none none .other).2 = exState0 :=
  C2_client_failure_no_effect "/data" exState0 "zz" none none none .other
    "Invalid chunk upload request data"
    (handleChunkUpload "/data" exState0 "zz" none none none .other).2 (by decide)

theorem C10_empty_metadata_is_missing_witness :
    handleChunkUpload "/data" exStateRec "u1" (some "") (some "2") (some "a") (.bytes [1])
      = (.clientError "Chunk upload is missing required metadata", exStateRec) :=
  C10_empty_metadata_is_missing "/data" exStateRec "u1" (some "") (some "2") (some "a")
    (.bytes [1]) (initRecord "u1" "f1" 2) (by decide) (by decide) (Or.inl rfl)

theorem C6_size_checked_first_witness :
    handleChunkUpload "/data" exStateRec "u1" (some "0") (some "3") (some "a") (.bytes [1])
      = (.clientError "ERROR: Upload metadata is invalid - size changed", exStateRec) :=
  C6_size_checked_first "/data" exStateRec "u1" "0" "3" "a" (.bytes [1])
    (initRecord "u1" "f1" 2) 3 (by decide) (by decide) (by decide) (by decide) (by decide)
    (by decide) (by decide)

theorem C9_initiate_success_and_failure_witness :
    ((UploadOutcome.serverError "No length for new chunked upload request.") = .ok "u1" →
      truthy (none : Option String) = true)
    ∧ ((UploadOutcome.serverError "No length for new chunked upload request.") ≠ .ok "u1" →
      exState0.records = exState0.records) :=
  C9_initiate_success_and_failure "/data" exState0 "\x7b\x7d" none "u1" "f1"
    (.serverError "No length for new chunked upload request.") exState0 (by decide)

/-! ### Claim C8: reassembly aborts on a missing chunk -/

theorem readChunks_isOk (s : FpState) (d fid : String) :
    ∀ n, (∀ i, 1 ≤ i → i ≤ n → getFile s (pyJoin d (chunkName fid i)) ≠ none) →
      ∃ bs, readChunks s d fid n = .ok bs := by
  intro n
  induction n with
  | zero => intro _; exact ⟨[], rfl⟩
  | succ n ih =>
    intro hall
    obtain ⟨bs, hbs⟩ := ih (fun i hi1 hi2 => hall i hi1 (by omega))
    rcases hg : getFile s (pyJoin d (chunkName fid (n + 1))) with _ | c
    · exact absurd hg (hall (n + 1) (by omega) (by omega))
    · exact ⟨bs ++ c, by simp only [readChunks, hbs, hg]⟩

theorem readChunks_error (s : FpState) (d fid : String) {j : Nat}
    (hj1 : 1 ≤ j) (hmiss : getFile s (pyJoin d (chunkName fid j)) = none)
    (hbelow : ∀ i, 1 ≤ i → i < j → getFile s (pyJoin d (chunkName fid i)) ≠ none) :
    ∀ n, j ≤ n → readChunks s d fid n = .error j := by
  intro n
  induction n with
  | zero => intro h; omega
  | succ n ih =>
    intro hjn
    by_cases hj : j ≤ n
    · simp only [readChunks, ih hj]
    · have hjeq : j = n + 1 := by omega
      subst hjeq
      obtain ⟨bs, hbs⟩ := readChunks_isOk s d fid n (fun i hi1 hi2 => hbelow i hi1 (by omega))
      simp only [readChunks, hbs, hmiss]

/-- C8: when reassembly runs on a complete upload and the chunk blob with
index j (the first missing one) is absent while all blobs below j are
present, _store_upload fails with a FileNotFoundError naming index j and
the state is returned entirely unchanged: no chunk blob is deleted, no
final artifact is stored, and the UploadRecord is left intact. -/
theorem C8_missing_chunk_aborts (base : String) (s : FpState) (t : TemporaryUploadChunked)
    (j : Nat) (hcomp : t.upload_complete = true) (hj1 : 1 ≤ j) (hjn : j ≤ t.last_chunk)
    (hmiss : getFile s (pyJoin (pyJoin base t.upload_dir) (chunkName t.file_id j)) = none)
    (hbelow : ∀ i, 1 ≤ i → i < j →
      getFile s (pyJoin (pyJoin base t.upload_dir) (chunkName t.file_id i)) ≠ none) :
    storeUpload base s t = (s, some (.chunkMissing j)) := by
  unfold storeUpload
  rw [if_neg (by simp [hcomp])]
  simp only [readChunks_error s (pyJoin base t.upload_dir) t.file_id hj1 hmiss hbelow
    t.last_chunk hjn]

theorem C8_missing_chunk_aborts_witness :
    storeUpload "/data" exState0 exRecC5 = (exState0, some (.chunkMissing 1)) :=
  C8_missing_chunk_aborts "/data" exState0 exRecC5 1 (by decide) (by decide) (by decide)
    (by decide) (fun _ h1 h2 => (by omega : False).elim)

/-! ### Claim C5 (amended): effects of a successful append -/

/-- C5 amended: on every appendChunk call that passes all metadata checks
on a record that is not already marked complete, exactly one new chunk
blob numbered last_chunk+1 is written under the upload directory, the
saved record has last_chunk incremented by 1 and offset increased by
exactly the payload length — also when the payload arrives as a character
string rather than bytes — and upload_complete is set and reassembly
(storeUpload) invoked exactly when the new offset equals total_size. -/
theorem C5_success_effects (base : String) (s : FpState) (chunkId so sl nm : String)
    (bs : Bytes) (fd : FileData) (t : TemporaryUploadChunked)
    (hcid : chunkId ≠ "") (hrec : getRecord s chunkId = some t)
    (hcomp : t.upload_complete = false)
    (hso : so ≠ "") (hsl : sl ≠ "") (hnm : nm ≠ "")
    (hslp : pyInt sl = some t.total_size)
    (hname : t.last_chunk = 0 ∨ t.upload_name = nm)
    (hsop : pyInt so = some t.offset)
    (hfd : fd = .bytes bs ∨ fd = .str bs)
    (hdir : dirExists s (pyJoin base t.upload_dir) = true) :
    ∃ t2 : TemporaryUploadChunked,
      t2 = { (if t.last_chunk = 0 then { t with upload_name := nm } else t) with
             last_chunk := t.last_chunk + 1,
             offset := t.offset + (bs.length : Int),
             upload_complete := decide (t.offset + (bs.length : Int) = t.total_size) }
      ∧ (t2.upload_complete = true ↔ t.offset + (bs.length : Int) = t.total_size)
      ∧ (handleChunkUpload base s chunkId (some so) (some sl) (some nm) fd
          = if t.offset + (bs.length : Int) = t.total_size then
              (match storeUpload base (saveRecord (writeFile s
                  (pyJoin base (pyJoin t.upload_dir (chunkName t.file_id (t.last_chunk + 1))))
                  bs) t2) t2 with
               | (s3, none) => (.ok chunkId, s3)
               | (s3, some _) => (.serverError "Error storing uploaded file.", s3))
            else (.ok chunkId, saveRecord (writeFile s
                  (pyJoin base (pyJoin t.upload_dir (chunkName t.file_id (t.last_chunk + 1))))
                  bs) t2)) := by
  refine ⟨_, rfl, ?_, ?_⟩
  · by_cases hc : t.offset + (bs.length : Int) = t.total_size <;> simp [hc]
  · have hroute : handleChunkUpload base s chunkId (some so) (some sl) (some nm) fd
        = handleChunkUpload.handleChunkSave base s chunkId
            (if t.last_chunk = 0 then { t with upload_name := nm } else t) bs := by
      rcases hfd with h | h <;> subst h <;> rcases hname with h2 | h2 <;>
        by_cases h3 : t.last_chunk = 0 <;>
          simp [handleChunkUpload, hcid, hrec, hso, hsl, hnm, hslp, hsop, h2, h3]
    rw [hroute]
    have hud : (if t.last_chunk = 0 then { t with upload_name := nm } else t).upload_dir
        = t.upload_dir := by
      by_cases h3 : t.last_chunk = 0 <;> simp [h3]
    have hfid : (if t.last_chunk = 0 then { t with upload_name := nm } else t).file_id
        = t.file_id := by
      by_cases h3 : t.last_chunk = 0 <;> simp [h3]
    have hlc : (if t.last_chunk = 0 then { t with upload_name := nm } else t).last_chunk
        = t.last_chunk := by
      by_cases h3 : t.last_chunk = 0 <;> simp [h3]
    have hoff : (if t.last_chunk = 0 then { t with upload_name := nm } else t).offset
        = t.offset := by
      by_cases h3 : t.last_chunk = 0 <;> simp [h3]
    have htot : (if t.last_chunk = 0 then { t with upload_name := nm } else t).total_size
        = t.total_size := by
      by_cases h3 : t.last_chunk = 0 <;> simp [h3]
    have hcm : (if t.last_chunk = 0 then { t with upload_name := nm } else t).upload_complete
        = false := by
      by_cases h3 : t.last_chunk = 0 <;> simp [h3, hcomp]
    generalize hT : (if t.last_chunk = 0 then { t with upload_name := nm } else t) = T1
      at hud hfid hlc hoff htot hcm ⊢
    unfold handleChunkUpload.handleChunkSave
    simp only []
    rw [hud, hfid, hlc]
    rw [if_neg (by simp [hdir])]
    by_cases hc : t.offset + (bs.length : Int) = t.total_size
    · rw [if_pos hc]
      simp [hud, hfid, hlc, hoff, htot, hcm, hc]
    · rw [if_neg hc]
      simp [hud, hfid, hlc, hoff, htot, hcm, hc]

theorem C5_success_effects_witness :
    (handleChunkUpload "/data" exStateRec "u1" (some "0") (some "2") (some "a")
        (.bytes [7])).1 = .ok "u1" := by
  obtain ⟨t2, ht2, hiff, heq⟩ := C5_success_effects "/data" exStateRec "u1" "0" "2" "a"
    [7] (.bytes [7]) (initRecord "u1" "f1" 2) (by decide) (by decide) (by decide)
    (by decide) (by decide) (by decide) (by decide) (Or.inl (by decide)) (by decide)
    (Or.inl rfl) (by decide)
  rw [heq, if_neg (by decide)]

/-! ### Claim C3 (amended): record invariants along traces -/

theorem deleteChunks_records (s : FpState) (d f : String) :
    ∀ n, (deleteChunks s d f n).records = s.records := by
  intro n
  induction n with
  | zero => rfl
  | succ n ih => simp [deleteChunks, removeFile, ih]

theorem storeUpload_getRecord_cases (base : String) (s : FpState)
    (t : TemporaryUploadChunked) (id : String) :
    getRecord (storeUpload base s t).1 id = getRecord s id
      ∨ getRecord (storeUpload base s t).1 id = none := by
  unfold storeUpload
  simp only []
  repeat' split
  all_goals try exact Or.inl rfl
  by_cases hid : id = t.upload_id
  · subst hid
    exact Or.inr (getRecord_deleteRecord_self _ _)
  · refine Or.inl ?_
    rw [getRecord_deleteRecord_ne _ hid]
    show (deleteChunks _ _ _ _).records.find? _ = getRecord s id
    rw [deleteChunks_records]
    rfl

theorem getRecord_saveRecord_of_id (s : FpState) (T : TemporaryUploadChunked) (cid : String)
    (h : T.upload_id = cid) : getRecord (saveRecord s T) cid = some T := by
  subst h
  exact getRecord_saveRecord_self s T

theorem handleChunkSave_record (base cid : String) (s : FpState) (bs : Bytes)
    (t1 : TemporaryUploadChunked) (hid : t1.upload_id = cid) (t2 : TemporaryUploadChunked)
    (h2 : getRecord (handleChunkUpload.handleChunkSave base s cid t1 bs).2 cid = some t2) :
    getRecord s cid = some t2
    ∨ (t2.offset = t1.offset + (bs.length : Int)
        ∧ t2.last_chunk = t1.last_chunk + 1
        ∧ t2.total_size = t1.total_size
        ∧ (t2.upload_complete = true ↔
            (t1.upload_complete = true ∨ t1.offset + (bs.length : Int) = t1.total_size))) := by
  unfold handleChunkUpload.handleChunkSave at h2
  by_cases hdir : dirExists s (pyJoin base t1.upload_dir) = true
  · rw [if_neg (by simp [hdir])] at h2
    dsimp only at h2
    by_cases hcnd : t1.offset + (bs.length : Int) = t1.total_size
    · rw [if_pos hcnd] at h2
      dsimp only at h2
      rw [if_pos rfl] at h2
      rcases hsu : storeUpload base
          (saveRecord (writeFile s (pyJoin base
            (pyJoin t1.upload_dir (chunkName t1.file_id (t1.last_chunk + 1)))) bs)
            { t1 with last_chunk := t1.last_chunk + 1,
                      offset := t1.offset + (bs.length : Int), upload_complete := true })
          { t1 with last_chunk := t1.last_chunk + 1,
                    offset := t1.offset + (bs.length : Int), upload_complete := true }
        with ⟨s3, e⟩
      rw [hsu] at h2
      have hdisj := storeUpload_getRecord_cases base
          (saveRecord (writeFile s (pyJoin base
            (pyJoin t1.upload_dir (chunkName t1.file_id (t1.last_chunk + 1)))) bs)
            { t1 with last_chunk := t1.last_chunk + 1,
                      offset := t1.offset + (bs.length : Int), upload_complete := true })
          { t1 with last_chunk := t1.last_chunk + 1,
                    offset := t1.offset + (bs.length : Int), upload_complete := true } cid
      rw [hsu] at hdisj
      rcases e with _ | e
      all_goals dsimp only at h2
      all_goals {
        rcases hdisj with hq | hq
        · rw [hq] at h2
          rw [getRecord_saveRecord_of_id] at h2
          · injection h2 with h2
            subst h2
            refine Or.inr ⟨rfl, rfl, rfl, ?_⟩
            simp [hcnd]
          · exact hid
        · rw [hq] at h2
          exact absurd h2 (by simp)
      }
    · rw [if_neg hcnd] at h2
      dsimp only at h2
      by_cases hcp : t1.upload_complete = true
      · rw [if_pos hcp] at h2
        rcases hsu : storeUpload base
            (saveRecord (writeFile s (pyJoin base
              (pyJoin t1.upload_dir (chunkName t1.file_id (t1.last_chunk + 1)))) bs)
              { t1 with last_chunk := t1.last_chunk + 1,
                        offset := t1.offset + (bs.length : Int) })
            { t1 with last_chunk := t1.last_chunk + 1,
                      offset := t1.offset + (bs.length : Int) }
          with ⟨s3, e⟩
        rw [hsu] at h2
        have hdisj := storeUpload_getRecord_cases base
            (saveRecord (writeFile s (pyJoin base
              (pyJoin t1.upload_dir (chunkName t1.file_id (t1.last_chunk + 1)))) bs)
              { t1 with last_chunk := t1.last_chunk + 1,
                        offset := t1.offset + (bs.length : Int) })
            { t1 with last_chunk := t1.last_chunk + 1,
                      offset := t1.offset + (bs.length : Int) } cid
        rw [hsu] at hdisj
        rcases e with _ | e
        all_goals dsimp only at h2
        all_goals {
          rcases hdisj with hq | hq
          · rw [hq] at h2
            rw [getRecord_saveRecord_of_id] at h2
            · injection h2 with h2
              subst h2
              refine Or.inr ⟨rfl, rfl, rfl, ?_⟩
              simp [hcp]
            · exact hid
          · rw [hq] at h2
            exact absurd h2 (by simp)
        }
      · rw [if_neg hcp] at h2
        dsimp only at h2
        rw [getRecord_saveRecord_of_id] at h2
        · injection h2 with h2
          subst h2
          refine Or.inr ⟨rfl, rfl, rfl, ?_⟩
          simp [hcnd, hcp]
        · exact hid
  · rw [if_pos (by simp [hdir])] at h2
    exact Or.inl h2

theorem appendStep_mono_inv (base id : String) (s : FpState) (r : AppendReq)
    (t : TemporaryUploadChunked) (hrec : getRecord s id = some t)
    (t2 : TemporaryUploadChunked)
    (h2 : getRecord (appendStep base id s r) id = some t2) :
    t.offset ≤ t2.offset
    ∧ (RecInv t → t.offset + (dataLen r.data : Int) ≤ t.total_size → RecInv t2) := by
  have hfin : getRecord s id = some t2 →
      t.offset ≤ t2.offset
      ∧ (RecInv t → t.offset + (dataLen r.data : Int) ≤ t.total_size → RecInv t2) := by
    intro h
    rw [hrec] at h
    injection h with h
    subst h
    exact ⟨le_refl _, fun hi _ => hi⟩
  obtain ⟨uo, ul, un, fd⟩ := r
  unfold appendStep at h2
  by_cases hcid : id = ""
  · simp only [handleChunkUpload, if_pos hcid] at h2
    exact hfin h2
  rcases uo with _ | so <;> rcases ul with _ | sl <;> rcases un with _ | nm <;>
    try (exact hfin (by simpa only [handleChunkUpload, if_neg hcid, hrec] using h2))
  by_cases hemp : (so = "" || sl = "" || nm = "") = true
  · simp only [handleChunkUpload, if_neg hcid, hrec, hemp, if_true] at h2
    first
      | exact hfin h2
      | exact hfin (hrec.trans h2)
  have hemp2 : (so = "" || sl = "" || nm = "") = false := by simpa using hemp
  rcases hpl : pyInt sl with _ | l
  · simp only [handleChunkUpload, if_neg hcid, hrec, hemp2, Bool.false_eq_true, if_false,
      hpl] at h2
    first
      | exact hfin h2
      | exact hfin (hrec.trans h2)
  by_cases hsz : l = t.total_size
  case neg =>
    simp only [handleChunkUpload, if_neg hcid, hrec, hemp2, Bool.false_eq_true, if_false,
      hpl, if_pos hsz] at h2
    first
      | exact hfin h2
      | exact hfin (hrec.trans h2)
  case pos =>
  subst hsz
  by_cases hng : (t.last_chunk != 0 && t.upload_name != nm) = true
  · simp only [handleChunkUpload, if_neg hcid, hrec, hemp2, Bool.false_eq_true, if_false,
      hpl, if_neg (fun hh : t.total_size ≠ t.total_size => hh rfl), hng, if_true] at h2
    first
      | exact hfin h2
      | exact hfin (hrec.trans h2)
  have hng2 : (t.last_chunk != 0 && t.upload_name != nm) = false := by simpa using hng
  rcases hpo : pyInt so with _ | o
  · simp only [handleChunkUpload, if_neg hcid, hrec, hemp2, Bool.false_eq_true, if_false,
      hpl, if_neg (fun hh : t.total_size ≠ t.total_size => hh rfl), hng2, hpo] at h2
    first
      | exact hfin h2
      | exact hfin (hrec.trans h2)
  by_cases hof : o = t.offset
  case neg =>
    simp only [handleChunkUpload, if_neg hcid, hrec, hemp2, Bool.false_eq_true, if_false,
      hpl, if_neg (fun hh : t.total_size ≠ t.total_size => hh rfl), hng2, hpo,
      if_pos hof] at h2
    first
      | exact hfin h2
      | exact hfin (hrec.trans h2)
  case pos =>
  subst hof
  have hT1id : (if t.last_chunk = 0 then { t with upload_name := nm } else t).upload_id
      = id := by
    have := getRecord_some_id hrec
    by_cases h3 : t.last_chunk = 0 <;> simp [h3, this]
  have hT1off : (if t.last_chunk = 0 then { t with upload_name := nm } else t).offset
      = t.offset := by
    by_cases h3 : t.last_chunk = 0 <;> simp [h3]
  have hT1tot : (if t.last_chunk = 0 then { t with upload_name := nm } else t).total_size
      = t.total_size := by
    by_cases h3 : t.last_chunk = 0 <;> simp [h3]
  have hT1cm : (if t.last_chunk = 0 then { t with upload_name := nm } else t).upload_complete
      = t.upload_complete := by
    by_cases h3 : t.last_chunk = 0 <;> simp [h3]
  rcases fd with bs | bs | _
  case other =>
    simp only [handleChunkUpload, if_neg hcid, hrec, hemp2, Bool.false_eq_true, if_false,
      hpl, if_neg (fun hh : t.total_size ≠ t.total_size => hh rfl), hng2, hpo,
      if_neg (fun hh : t.offset ≠ t.offset => hh rfl)] at h2
    first
      | exact hfin h2
      | exact hfin (hrec.trans h2)
  all_goals {
    simp only [handleChunkUpload, if_neg hcid, hrec, hemp2, Bool.false_eq_true, if_false,
      hpl, if_neg (fun hh : t.total_size ≠ t.total_size => hh rfl), hng2, hpo,
      if_neg (fun hh : t.offset ≠ t.offset => hh rfl)] at h2
    rcases handleChunkSave_record base id s bs _ hT1id t2 h2 with hq | ⟨ho, hl, ht, hcm⟩
    · exact hfin hq
    · rw [hT1off] at ho
      rw [hT1tot] at ht
      rw [hT1off, hT1tot, hT1cm] at hcm
      constructor
      · rw [ho]
        have hlen : (0 : Int) ≤ (bs.length : Int) := by positivity
        omega
      · rintro ⟨hi0, hi1, hiff⟩ hfits
        refine ⟨?_, ?_, ?_⟩
        · rw [ho]
          have hlen : (0 : Int) ≤ (bs.length : Int) := by positivity
          omega
        · rw [ho, ht]
          simpa [dataLen] using hfits
        · rw [hcm, ho, ht]
          constructor
          · rintro (hc | hc)
            · have hceq := hiff.mp hc
              have hlen0 : (bs.length : Int) = 0 := by
                simp only [dataLen] at hfits
                omega
              omega
            · exact hc
          · exact fun hc => Or.inr hc
  }

theorem appendStep_no_record (base id : String) (s : FpState) (r : AppendReq)
    (h : getRecord s id = none) : appendStep base id s r = s := by
  unfold appendStep handleChunkUpload
  by_cases hcid : id = ""
  · simp [hcid]
  · simp [hcid, h]

theorem initiate_pair_shape (base : String) (s : FpState) (fileObj ulenS : String)
    (uploadId fileId : String) (n : Int) (r : UploadOutcome) (s2 : FpState)
    (h : handleNewChunkUpload base s fileObj (some ulenS) uploadId fileId = (r, s2))
    (hok : r = .ok uploadId) (hparse : pyInt ulenS = some n) :
    getRecord s2 uploadId = some (initRecord uploadId fileId n) := by
  unfold handleNewChunkUpload at h
  simp only [] at h
  repeat' split at h
  all_goals (injection h with ha hb; subst ha; subst hb)
  all_goals try (exact UploadOutcome.noConfusion hok)
  rename_i nn heq
  have hn : nn = n := by
    have h3 : pyInt ulenS = some nn := heq
    rw [hparse] at h3
    exact (Option.some.inj h3).symm
  subst hn
  exact getRecord_saveRecord_of_id _ _ _ rfl

theorem initiate_creates_record (base : String) (s : FpState) (fileObj ulenS : String)
    (uploadId fileId : String) (n : Int)
    (hok : (handleNewChunkUpload base s fileObj (some ulenS) uploadId fileId).1
      = .ok uploadId)
    (hparse : pyInt ulenS = some n) :
    getRecord (handleNewChunkUpload base s fileObj (some ulenS) uploadId fileId).2 uploadId
      = some (initRecord uploadId fileId n) :=
  initiate_pair_shape base s fileObj ulenS uploadId fileId n _ _ rfl hok hparse

theorem runAppends_snoc (base id : String) (pre : List AppendReq) (rr : AppendReq) :
    ∀ s1, runAppends base id (pre ++ [rr]) s1
      = appendStep base id (runAppends base id pre s1) rr := by
  induction pre with
  | nil => intro s1; rfl
  | cons p ps ih => intro s1; exact ih (appendStep base id s1 p)

theorem runAppends_inv (base id : String) :
    ∀ (ops : List AppendReq) (s1 : FpState),
      (∀ t, getRecord s1 id = some t → RecInv t) →
      (∀ pre rr post, ops = pre ++ rr :: post →
        ∀ t, getRecord (runAppends base id pre s1) id = some t →
          t.offset + (dataLen rr.data : Int) ≤ t.total_size) →
      ∀ t2, getRecord (runAppends base id ops s1) id = some t2 → RecInv t2 := by
  intro ops
  induction ops with
  | nil => intro s1 h0 _ t2 h2; exact h0 t2 h2
  | cons rr rs ih =>
    intro s1 h0 hfits t2 h2
    refine ih (appendStep base id s1 rr) ?_ ?_ t2 h2
    · intro t h
      rcases hpre : getRecord s1 id with _ | t0
      · rw [appendStep_no_record base id s1 rr hpre] at h
        rw [hpre] at h
        exact absurd h (by simp)
      · exact (appendStep_mono_inv base id s1 rr t0 hpre t h).2 (h0 t0 hpre)
          (hfits [] rr rs rfl t0 hpre)
    · intro pre rr2 post hsplit t ht
      exact hfits (rr :: pre) rr2 post (by rw [hsplit]; rfl) t ht

/-- C3 amended: for every upload created by a successful initiate whose
declared total size parses to n > 0 and then mutated only by appendChunk
calls, as long as no successful append would advance offset past
total_size (the code never checks this, see the counterexample), every
surviving record satisfies 0 ≤ offset ≤ total_size and
upload_complete ↔ offset = total_size, and the record's offset is
monotonically non-decreasing across every operation. -/
theorem C3_invariants_and_monotonicity (base : String) (s0 : FpState)
    (fileObj ulenS id fid : String) (n : Int) (ops : List AppendReq)
    (hok : (handleNewChunkUpload base s0 fileObj (some ulenS) id fid).1 = .ok id)
    (hparse : pyInt ulenS = some n) (hpos : 0 < n)
    (hfits : ∀ pre rr post, ops = pre ++ rr :: post →
      ∀ t, getRecord (runAppends base id pre
          (handleNewChunkUpload base s0 fileObj (some ulenS) id fid).2) id = some t →
        t.offset + (dataLen rr.data : Int) ≤ t.total_size) :
    (∀ t2, getRecord (runAppends base id ops
        (handleNewChunkUpload base s0 fileObj (some ulenS) id fid).2) id = some t2 →
      RecInv t2)
    ∧ (∀ pre rr post, ops = pre ++ rr :: post →
        ∀ ta tb,
          getRecord (runAppends base id pre
            (handleNewChunkUpload base s0 fileObj (some ulenS) id fid).2) id = some ta →
          getRecord (runAppends base id (pre ++ [rr])
            (handleNewChunkUpload base s0 fileObj (some ulenS) id fid).2) id = some tb →
          ta.offset ≤ tb.offset) := by
  have hrec1 := initiate_creates_record base s0 fileObj ulenS id fid n hok hparse
  have hInv0 : ∀ t, getRecord (handleNewChunkUpload base s0 fileObj (some ulenS)
      id fid).2 id = some t → RecInv t := by
    intro t h
    rw [hrec1] at h
    injection h with h
    subst h
    refine ⟨le_refl _, le_of_lt hpos, ?_⟩
    constructor
    · intro hc
      exact absurd hc (by simp [initRecord])
    · intro hc
      exact absurd hc.symm (by simp [initRecord]; omega)
  constructor
  · exact runAppends_inv base id ops _ hInv0 hfits
  · intro pre rr post hsplit ta tb hta htb
    rw [runAppends_snoc] at htb
    exact (appendStep_mono_inv base id _ rr ta hta tb htb).1

theorem C3_invariants_and_monotonicity_witness : RecInv (initRecord "u1" "f1" 2) :=
  (C3_invariants_and_monotonicity "/data" exState0 "\x7b\x7d" "2" "u1" "f1" 2 []
    (by decide) (by decide) (by decide)
    (fun pre rr post h => absurd h (by simp))).1
    (initRecord "u1" "f1" 2) (by decide)

/-! ### Success-path evaluation helpers -/

theorem handleChunkUpload_routes (base : String) (s : FpState) (chunkId so sl nm : String)
    (bs : Bytes) (fd : FileData) (t : TemporaryUploadChunked)
    (hcid : chunkId ≠ "") (hrec : getRecord s chunkId = some t)
    (hso : so ≠ "") (hsl : sl ≠ "") (hnm : nm ≠ "")
    (hslp : pyInt sl = some t.total_size)
    (hname : t.last_chunk = 0 ∨ t.upload_name = nm)
    (hsop : pyInt so = some t.offset)
    (hfd : fd = .bytes bs ∨ fd = .str bs) :
    handleChunkUpload base s chunkId (some so) (some sl) (some nm) fd
      = handleChunkUpload.handleChunkSave base s chunkId
          (if t.last_chunk = 0 then { t with upload_name := nm } else t) bs := by
  rcases hfd with h | h <;> subst h <;> rcases hname with h2 | h2 <;>
    by_cases h3 : t.last_chunk = 0 <;>
      simp [handleChunkUpload, hcid, hrec, hso, hsl, hnm, hslp, hsop, h2, h3]

theorem handleChunkSave_noncomplete (base cid : String) (s : FpState) (bs : Bytes)
    (t1 : TemporaryUploadChunked)
    (hdir : dirExists s (pyJoin base t1.upload_dir) = true)
    (hnc : t1.upload_complete = false)
    (hcnd : t1.offset + (bs.length : Int) ≠ t1.total_size) :
    handleChunkUpload.handleChunkSave base s cid t1 bs
      = (.ok cid, saveRecord (writeFile s (pyJoin base (pyJoin t1.upload_dir
            (chunkName t1.file_id (t1.last_chunk + 1)))) bs)
          { t1 with last_chunk := t1.last_chunk + 1,
                    offset := t1.offset + (bs.length : Int) }) := by
  unfold handleChunkUpload.handleChunkSave
  rw [if_neg (by simp [hdir])]
  dsimp only
  rw [if_neg hcnd]
  dsimp only
  rw [if_neg (by simp [hnc])]

theorem handleChunkSave_complete (base cid : String) (s : FpState) (bs : Bytes)
    (t1 : TemporaryUploadChunked) (s3 : FpState) (e : Option StoreErr)
    (hdir : dirExists s (pyJoin base t1.upload_dir) = true)
    (hcnd : t1.offset + (bs.length : Int) = t1.total_size)
    (hsu : storeUpload base
        (saveRecord (writeFile s (pyJoin base (pyJoin t1.upload_dir
          (chunkName t1.file_id (t1.last_chunk + 1)))) bs)
          { t1 with last_chunk := t1.last_chunk + 1,
                    offset := t1.offset + (bs.length : Int), upload_complete := true })
        { t1 with last_chunk := t1.last_chunk + 1,
                  offset := t1.offset + (bs.length : Int), upload_complete := true }
      = (s3, e)) :
    handleChunkUpload.handleChunkSave base s cid t1 bs
      = if e = none then (.ok cid, s3)
        else (.serverError "Error storing uploaded file.", s3) := by
  unfold handleChunkUpload.handleChunkSave
  rw [if_neg (by simp [hdir])]
  dsimp only
  rw [if_pos hcnd]
  dsimp only
  rw [if_pos rfl, hsu]
  rcases e with _ | e <;> simp

theorem readChunks_ok (s : FpState) (d fid : String) :
    ∀ (n : Nat) (cs : List Bytes) (hl : cs.length = n),
      (∀ i (hi : i < n), getFile s (pyJoin d (chunkName fid (i + 1)))
        = some (cs.get ⟨i, by omega⟩)) →
      readChunks s d fid n = .ok cs.flatten := by
  intro n
  induction n with
  | zero =>
    intro cs hl _
    have h0 : cs = [] := List.length_eq_zero.mp hl
    subst h0
    rfl
  | succ n ih =>
    intro cs hl hget
    have hne : cs ≠ [] := by
      intro h
      subst h
      simp at hl
    have hdl : cs.dropLast.length = n := by simp [hl]
    have hstep := ih cs.dropLast hdl (fun i hi => by
      rw [hget i (by omega)]
      congr 1
      simp [List.get_eq_getElem, List.getElem_dropLast])
    have hlast := hget n (by omega)
    simp only [readChunks, hstep, hlast]
    congr 1
    conv_rhs => rw [← List.dropLast_concat_getLast hne]
    rw [List.flatten_append]
    simp [List.getLast_eq_getElem, hl, List.get_eq_getElem]

theorem storeUpload_ok (base : String) (s : FpState) (t : TemporaryUploadChunked)
    (cs : List Bytes)
    (hcomp : t.upload_complete = true)
    (hlen : cs.length = t.last_chunk)
    (hget : ∀ i (hi : i < t.last_chunk),
      getFile s (pyJoin (pyJoin base t.upload_dir) (chunkName t.file_id (i + 1)))
        = some (cs.get ⟨i, by omega⟩))
    (hsum : ((cs.flatten.length : Int)) = t.total_size) :
    storeUpload base s t
      = (deleteRecord
          (deleteChunks
            { writeFile s (pyJoin (pyJoin base t.upload_dir) t.file_id) cs.flatten with
              finals := { upload_id := t.upload_id, file_id := t.file_id,
                          upload_name := t.upload_name, data := cs.flatten } :: s.finals }
            (pyJoin base t.upload_dir) t.file_id t.last_chunk)
          t.upload_id, none) := by
  unfold storeUpload
  rw [if_neg (by simp [hcomp])]
  dsimp only
  rw [readChunks_ok s (pyJoin base t.upload_dir) t.file_id t.last_chunk cs hlen hget]
  dsimp only
  have hg : getFile
      { writeFile s (pyJoin (pyJoin base t.upload_dir) t.file_id) cs.flatten with
        finals := { upload_id := t.upload_id, file_id := t.file_id,
                    upload_name := t.upload_name, data := cs.flatten } :: s.finals }
      (pyJoin (pyJoin base t.upload_dir) t.file_id) = some cs.flatten := by
    show getFile (writeFile s (pyJoin (pyJoin base t.upload_dir) t.file_id) cs.flatten)
      (pyJoin (pyJoin base t.upload_dir) t.file_id) = some cs.flatten
    exact getFile_writeFile_self _ _ _
  rw [hg]
  dsimp only
  rw [if_neg (by rw [hsum]; exact fun hh => hh rfl)]

/-! ### Claim C7: resume offset and subsequent append -/

/-- C7: for an upload whose record exists and whose storage directory
exists, the HEAD restart handler returns the stored offset in the
Upload-Offset header and changes no state; without a record it returns
not-found; with a record but a missing directory it returns a server
error (storage inconsistent), in both cases changing nothing.  A
subsequent appendChunk whose claimed offset equals that stored offset,
with well-formed metadata and a bytes payload, on a consistent store
(chunks 1..last_chunk present and totalling offset bytes), succeeds. -/
theorem C7_resume_offset (base id : String) (s : FpState) :
    (getRecord s id = none →
      handleChunkRestart base s id = (.notFound "Invalid upload ID specified.", none, s))
    ∧ (∀ t, getRecord s id = some t →
        dirExists s (pyJoin base t.upload_dir) = false →
        handleChunkRestart base s id
          = (.serverError "Invalid upload location, cannot continue upload.", none, s))
    ∧ (∀ t, getRecord s id = some t →
        dirExists s (pyJoin base t.upload_dir) = true →
        handleChunkRestart base s id = (.ok id, some (intStr t.offset), s))
    ∧ (∀ t so sl nm (bs : Bytes) (cs : List Bytes)
        (hrec : getRecord s id = some t)
        (hdir : dirExists s (pyJoin base t.upload_dir) = true)
        (hcid : id ≠ "") (hcomp : t.upload_complete = false)
        (hso : so ≠ "") (hsl : sl ≠ "") (hnm : nm ≠ "")
        (hsop : pyInt so = some t.offset) (hslp : pyInt sl = some t.total_size)
        (hname : t.last_chunk = 0 ∨ t.upload_name = nm)
        (hud1 : pyStartswith t.upload_dir "/" = false) (hud2 : t.upload_dir ≠ "")
        (hfid1 : pyStartswith t.file_id "/" = false)
        (hcslen : cs.length = t.last_chunk)
        (hcsget : ∀ i (hi : i < t.last_chunk),
          getFile s (pyJoin (pyJoin base t.upload_dir) (chunkName t.file_id (i + 1)))
            = some (cs.get ⟨i, by omega⟩))
        (hcssum : ((cs.flatten.length : Int)) = t.offset),
        ∃ s2, handleChunkUpload base s id (some so) (some sl) (some nm) (.bytes bs)
          = (.ok id, s2)) := by
  refine ⟨?_, ?_, ?_, ?_⟩
  · intro h
    simp [handleChunkRestart, h]
  · intro t h hd
    simp [handleChunkRestart, h, hd]
  · intro t h hd
    simp [handleChunkRestart, h, hd]
  · intro t so sl nm bs cs hrec hdir hcid hcomp hso hsl hnm hsop hslp hname hud1 hud2
      hfid1 hcslen hcsget hcssum
    rw [handleChunkUpload_routes base s id so sl nm bs _ t hcid hrec hso hsl hnm hslp
      hname hsop (Or.inl rfl)]
    have hT1ud : (if t.last_chunk = 0 then { t with upload_name := nm } else t).upload_dir
        = t.upload_dir := by
      by_cases h3 : t.last_chunk = 0 <;> simp [h3]
    have hT1fid : (if t.last_chunk = 0 then { t with upload_name := nm } else t).file_id
        = t.file_id := by
      by_cases h3 : t.last_chunk = 0 <;> simp [h3]
    have hT1lc : (if t.last_chunk = 0 then { t with upload_name := nm } else t).last_chunk
        = t.last_chunk := by
      by_cases h3 : t.last_chunk = 0 <;> simp [h3]
    have hT1off : (if t.last_chunk = 0 then { t with upload_name := nm } else t).offset
        = t.offset := by
      by_cases h3 : t.last_chunk = 0 <;> simp [h3]
    have hT1tot : (if t.last_chunk = 0 then { t with upload_name := nm } else t).total_size
        = t.total_size := by
      by_cases h3 : t.last_chunk = 0 <;> simp [h3]
    have hT1cm : (if t.last_chunk = 0 then
        { t with upload_name := nm } else t).upload_complete = false := by
      by_cases h3 : t.last_chunk = 0 <;> simp [h3, hcomp]
    by_cases hc : t.offset + (bs.length : Int) = t.total_size
    case neg =>
      refine ⟨_, handleChunkSave_noncomplete base id s bs
        (if t.last_chunk = 0 then { t with upload_name := nm } else t) ?_ ?_ ?_⟩
      · rw [hT1ud]
        exact hdir
      · exact hT1cm
      · rw [hT1off, hT1tot]
        exact hc
    case pos =>
      have hchn : ∀ k, pyStartswith (chunkName t.file_id k) "/" = false :=
        pyStartswith_chunkName hfid1
      have hwp : pyJoin base (pyJoin t.upload_dir (chunkName t.file_id (t.last_chunk + 1)))
          = pyJoin (pyJoin base t.upload_dir) (chunkName t.file_id (t.last_chunk + 1)) :=
        pyJoin_assoc hud1 hud2 (hchn _)
      have hpathne : ∀ i, i < t.last_chunk →
          pyJoin (pyJoin base t.upload_dir) (chunkName t.file_id (i + 1))
            ≠ pyJoin (pyJoin base t.upload_dir) (chunkName t.file_id (t.last_chunk + 1)) := by
        intro i hi heq
        have := chunkName_inj (pyJoin_right_inj (hchn _) (hchn _) heq)
        omega
      have hsu := storeUpload_ok base
        (saveRecord (writeFile s (pyJoin base (pyJoin
            (if t.last_chunk = 0 then { t with upload_name := nm } else t).upload_dir
            (chunkName
              (if t.last_chunk = 0 then { t with upload_name := nm } else t).file_id
              ((if t.last_chunk = 0 then { t with upload_name := nm } else t).last_chunk
                + 1)))) bs)
          { (if t.last_chunk = 0 then { t with upload_name := nm } else t) with
            last_chunk := (if t.last_chunk = 0 then
              { t with upload_name := nm } else t).last_chunk + 1,
            offset := (if t.last_chunk = 0 then
              { t with upload_name := nm } else t).offset + (bs.length : Int),
            upload_complete := true })
        { (if t.last_chunk = 0 then { t with upload_name := nm } else t) with
          last_chunk := (if t.last_chunk = 0 then
            { t with upload_name := nm } else t).last_chunk + 1,
          offset := (if t.last_chunk = 0 then
            { t with upload_name := nm } else t).offset + (bs.length : Int),
          upload_complete := true }
        (cs ++ [bs]) rfl ?hlen ?hget ?hsum
      case hlen =>
        dsimp only
        rw [hT1lc]
        simp [hcslen]
      case hget =>
        intro i hi
        dsimp only at hi ⊢
        rw [hT1lc] at hi
        simp only [hT1ud, hT1fid, hT1lc]
        show getFile (writeFile s (pyJoin base (pyJoin t.upload_dir
            (chunkName t.file_id (t.last_chunk + 1)))) bs)
          (pyJoin (pyJoin base t.upload_dir) (chunkName t.file_id (i + 1)))
          = some ((cs ++ [bs]).get ⟨i, by simp [hcslen]; omega⟩)
        rw [hwp]
        by_cases hil : i < t.last_chunk
        · rw [getFile_writeFile_ne s bs (hpathne i hil), hcsget i hil]
          congr 1
          rw [List.get_eq_getElem, List.get_eq_getElem,
            List.getElem_append_left (by omega : i < cs.length)]
        · have hieq : i = t.last_chunk := by omega
          subst hieq
          rw [getFile_writeFile_self]
          congr 1
          rw [List.get_eq_getElem,
            List.getElem_append_right (by omega : cs.length ≤ t.last_chunk)]
          simp [hcslen]
      case hsum =>
        dsimp only
        rw [hT1tot]
        rw [List.flatten_append]
        simp only [List.flatten_cons, List.flatten_nil, List.append_nil,
          List.length_append]
        push_cast
        omega
      have hfin := handleChunkSave_complete base id s bs
        (if t.last_chunk = 0 then { t with upload_name := nm } else t) _ none
        (by rw [hT1ud]; exact hdir)
        (by rw [hT1off, hT1tot]; exact hc)
        hsu
      exact ⟨_, hfin.trans (if_pos rfl)⟩

theorem C7_resume_offset_witness :
    handleChunkRestart "/data" exStateRec "u1"
        = (.ok "u1", some (intStr (initRecord "u1" "f1" 2).offset), exStateRec)
    ∧ (handleChunkUpload "/data" exStateRec "u1" (some "0") (some "2") (some "a")
        (.bytes [7, 8])).1 = .ok "u1" := by
  constructor
  · exact (C7_resume_offset "/data" "u1" exStateRec).2.2.1 (initRecord "u1" "f1" 2)
      (by decide) (by decide)
  · obtain ⟨s2, hs⟩ := (C7_resume_offset "/data" "u1" exStateRec).2.2.2
      (initRecord "u1" "f1" 2) "0" "2" "a" [7, 8] [] (by decide) (by decide) (by decide)
      (by decide) (by decide) (by decide) (by decide) (by decide) (by decide)
      (Or.inl (by decide)) (by decide) (by decide) (by decide) (by decide)
      (fun i hi => absurd hi (Nat.not_lt_zero i)) (by decide)
    rw [hs]

/-! ### Claim C1: end-to-end reassembly -/

theorem deleteChunks_finals (s : FpState) (d f : String) :
    ∀ n, (deleteChunks s d f n).finals = s.finals := by
  intro n
  induction n with
  | zero => rfl
  | succ n ih => simp [deleteChunks, removeFile, ih]

theorem getFile_removeFile_none {s : FpState} {p : String} (q : String)
    (h : getFile s p = none) : getFile (removeFile s q) p = none := by
  by_cases hpq : p = q
  · subst hpq
    exact getFile_removeFile_self s p
  · rw [getFile_removeFile_ne s hpq]
    exact h

theorem deleteChunks_getFile_hit (s : FpState) (d f : String) :
    ∀ n i, 1 ≤ i → i ≤ n →
      getFile (deleteChunks s d f n) (pyJoin d (chunkName f i)) = none := by
  intro n
  induction n with
  | zero => intro i h1 h2; omega
  | succ n ih =>
    intro i h1 h2
    by_cases hin : i ≤ n
    · exact getFile_removeFile_none _ (ih i h1 hin)
    · have : i = n + 1 := by omega
      subst this
      exact getFile_removeFile_self _ _

theorem deleteChunks_getFile_other (s : FpState) (d f : String) {p : String} :
    ∀ n, (∀ i, 1 ≤ i → i ≤ n → p ≠ pyJoin d (chunkName f i)) →
      getFile (deleteChunks s d f n) p = getFile s p := by
  intro n
  induction n with
  | zero => intro _; rfl
  | succ n ih =>
    intro hne
    rw [show deleteChunks s d f (n + 1)
      = removeFile (deleteChunks s d f n) (pyJoin d (chunkName f (n + 1))) from rfl]
    rw [getFile_removeFile_ne _ (hne (n + 1) (by omega) (by omega))]
    exact ih (fun i h1 h2 => hne i h1 (by omega))

theorem goodSeq_nil_bss {total : Int} {nm : String} {off : Int} {bss : List Bytes}
    (h : GoodSeq total nm off [] bss) : bss = [] := by
  cases h
  rfl

theorem goodSeq_pos {total : Int} {nm : String} {off : Int} {ops : List AppendReq}
    {bss : List Bytes} (h : GoodSeq total nm off ops bss) (hne : ops ≠ []) :
    0 < bss.flatten.length := by
  cases h with
  | nil => exact absurd rfl hne
  | cons off r rs bs bss hdata hbs hoff hlen hnm hnm2 hrest =>
    have : bs.length ≠ 0 := fun hh => hbs (List.length_eq_zero.mp hh)
    simp only [List.flatten_cons, List.length_append]
    omega

theorem initiate_success_state (base : String) (s : FpState) (fileObj ulenS : String)
    (uploadId fileId : String) (n : Int) (r : UploadOutcome) (s2 : FpState)
    (h : handleNewChunkUpload base s fileObj (some ulenS) uploadId fileId = (r, s2))
    (hok : r = .ok uploadId) (hparse : pyInt ulenS = some n) :
    s2 = saveRecord (addDir s (pyAbspath (pyJoin base uploadId)))
          (initRecord uploadId fileId n) := by
  unfold handleNewChunkUpload at h
  simp only [] at h
  repeat' split at h
  all_goals (injection h with ha hb; subst ha; subst hb)
  all_goals try (exact UploadOutcome.noConfusion hok)
  rename_i nn heq
  have hn : nn = n := by
    have h3 : pyInt ulenS = some nn := heq
    rw [hparse] at h3
    exact (Option.some.inj h3).symm
  subst hn
  rfl

theorem C1_loop (base id fid nm : String) (n : Int)
    (hcid : id ≠ "") (hid1 : pyStartswith id "/" = false)
    (hfid1 : pyStartswith fid "/" = false) :
    ∀ (ops : List AppendReq) (bss : List Bytes) (done : List Bytes) (s : FpState)
      (t : TemporaryUploadChunked)
      (hgs : GoodSeq n nm ((done.flatten.length : Int)) ops bss)
      (hne : ops ≠ [])
      (hsum : ((done.flatten.length : Int)) + (bss.flatten.length : Int) = n)
      (hrec : getRecord s id = some t)
      (htid : t.upload_id = id) (htf : t.file_id = fid) (htu : t.upload_dir = id)
      (htn : t.total_size = n) (hto : t.offset = (done.flatten.length : Int))
      (htl : t.last_chunk = done.length) (htc : t.upload_complete = false)
      (htnm : done ≠ [] → t.upload_name = nm)
      (hdir : dirExists s (pyJoin base id) = true)
      (hfiles : ∀ i (hi : i < done.length),
        getFile s (pyJoin (pyJoin base id) (chunkName fid (i + 1)))
          = some (done.get ⟨i, hi⟩)),
      (runAppends base id ops s).finals
          = { upload_id := id, file_id := fid, upload_name := nm,
              data := done.flatten ++ bss.flatten } :: s.finals
        ∧ getRecord (runAppends base id ops s) id = none
        ∧ getFile (runAppends base id ops s) (pyJoin (pyJoin base id) fid)
          = some (done.flatten ++ bss.flatten)
        ∧ (∀ i, 1 ≤ i → i ≤ done.length + ops.length →
            getFile (runAppends base id ops s)
              (pyJoin (pyJoin base id) (chunkName fid i)) = none) := by
  intro ops
  induction ops with
  | nil =>
    intro bss done s t hgs hne
    exact absurd rfl hne
  | cons r rs ih =>
    intro bss done s t hgs hne hsum hrec htid htf htu htn hto htl htc htnm hdir hfiles
    cases hgs with
    | cons _ _ _ bs bss2 hdata hbs hoff hlen hnmr hnm2 hrest =>
    obtain ⟨so, hso1, hso2, hso3⟩ := hoff
    obtain ⟨sl, hsl1, hsl2, hsl3⟩ := hlen
    have hname : t.last_chunk = 0 ∨ t.upload_name = nm := by
      by_cases hdone : done = []
      · left
        rw [htl, hdone]
        rfl
      · right
        exact htnm hdone
    have hroute := handleChunkUpload_routes base s id so sl nm bs r.data t hcid hrec
      hso2 hsl2 hnm2 (by rw [htn]; exact hsl3) hname (by rw [hto]; exact hso3)
      (Or.inl hdata)
    have hstep : appendStep base id s r
        = (handleChunkUpload.handleChunkSave base s id
            (if t.last_chunk = 0 then { t with upload_name := nm } else t) bs).2 := by
      unfold appendStep
      rw [hso1, hsl1, hnmr, hroute]
    have hT1id : (if t.last_chunk = 0 then { t with upload_name := nm } else t).upload_id
        = id := by
      by_cases h3 : t.last_chunk = 0 <;> simp [h3, htid]
    have hT1fid : (if t.last_chunk = 0 then { t with upload_name := nm } else t).file_id
        = fid := by
      by_cases h3 : t.last_chunk = 0 <;> simp [h3, htf]
    have hT1ud : (if t.last_chunk = 0 then { t with upload_name := nm } else t).upload_dir
        = id := by
      by_cases h3 : t.last_chunk = 0 <;> simp [h3, htu]
    have hT1lc : (if t.last_chunk = 0 then { t with upload_name := nm } else t).last_chunk
        = done.length := by
      by_cases h3 : t.last_chunk = 0 <;> simp [h3] <;> omega
    have hT1off : (if t.last_chunk = 0 then { t with upload_name := nm } else t).offset
        = ((done.flatten.length : Int)) := by
      by_cases h3 : t.last_chunk = 0 <;> simp [h3, hto]
    have hT1tot : (if t.last_chunk = 0 then { t with upload_name := nm } else t).total_size
        = n := by
      by_cases h3 : t.last_chunk = 0 <;> simp [h3, htn]
    have hT1cm : (if t.last_chunk = 0 then
        { t with upload_name := nm } else t).upload_complete = false := by
      by_cases h3 : t.last_chunk = 0 <;> simp [h3, htc]
    have hT1nm : (if t.last_chunk = 0 then { t with upload_name := nm } else t).upload_name
        = nm := by
      by_cases h3 : t.last_chunk = 0
      · simp [h3]
      · simp [h3]
        apply htnm
        intro hdone
        apply h3
        rw [htl, hdone]
        rfl
    have hchn : ∀ k, pyStartswith (chunkName fid k) "/" = false :=
      pyStartswith_chunkName hfid1
    have hwp : pyJoin base (pyJoin id (chunkName fid (done.length + 1)))
        = pyJoin (pyJoin base id) (chunkName fid (done.length + 1)) :=
      pyJoin_assoc hid1 hcid (hchn _)
    have hpathne : ∀ i j : Nat, i ≠ j →
        pyJoin (pyJoin base id) (chunkName fid i)
          ≠ pyJoin (pyJoin base id) (chunkName fid j) := by
      intro i j hij heq
      exact hij (chunkName_inj (pyJoin_right_inj (hchn _) (hchn _) heq))
    have hartne : ∀ i : Nat, pyJoin (pyJoin base id) fid
        ≠ pyJoin (pyJoin base id) (chunkName fid i) := by
      intro i heq
      exact (chunkName_ne_fid fid i) (pyJoin_right_inj hfid1 (hchn _) heq).symm
    rcases rs with _ | ⟨r2, rs2⟩
    · -- the final append: it completes the upload and triggers reassembly
      have hbss2 : bss2 = [] := goodSeq_nil_bss hrest
      subst hbss2
      set T1 : TemporaryUploadChunked :=
        if t.last_chunk = 0 then { t with upload_name := nm } else t with hT1def
      have hsum1 : ((done.flatten.length : Int)) + (bs.length : Int) = n := by
        simp only [List.flatten_cons, List.flatten_nil, List.append_nil,
          List.length_append] at hsum
        push_cast at hsum ⊢
        omega
      have hcomp : T1.offset + (bs.length : Int) = T1.total_size := by
        rw [hT1off, hT1tot]
        exact hsum1
      have hdir1 : dirExists s (pyJoin base T1.upload_dir) = true := by
        rw [hT1ud]
        exact hdir
      have hsu := storeUpload_ok base
        (saveRecord (writeFile s (pyJoin base (pyJoin T1.upload_dir
            (chunkName T1.file_id (T1.last_chunk + 1)))) bs)
          { T1 with last_chunk := T1.last_chunk + 1,
                    offset := T1.offset + (bs.length : Int), upload_complete := true })
        { T1 with last_chunk := T1.last_chunk + 1,
                  offset := T1.offset + (bs.length : Int), upload_complete := true }
        (done ++ [bs]) rfl ?hlen2 ?hget2 ?hsum2
      case hlen2 =>
        dsimp only
        rw [hT1lc]
        simp
      case hget2 =>
        intro i hi
        dsimp only at hi ⊢
        rw [hT1lc] at hi
        simp only [hT1ud, hT1fid, hT1lc]
        show getFile (writeFile s (pyJoin base (pyJoin id
            (chunkName fid (done.length + 1)))) bs)
          (pyJoin (pyJoin base id) (chunkName fid (i + 1)))
          = some ((done ++ [bs]).get ⟨i, by simp; omega⟩)
        rw [hwp]
        by_cases hil : i < done.length
        · rw [getFile_writeFile_ne s bs (hpathne (i + 1) (done.length + 1) (by omega)),
            hfiles i hil]
          congr 1
          rw [List.get_eq_getElem, List.get_eq_getElem,
            List.getElem_append_left (by omega : i < done.length)]
        · have hieq : i = done.length := by omega
          subst hieq
          rw [getFile_writeFile_self]
          congr 1
          rw [List.get_eq_getElem,
            List.getElem_append_right (by omega : done.length ≤ done.length)]
          simp
      case hsum2 =>
        dsimp only
        rw [hT1tot]
        rw [List.flatten_append]
        simp only [List.flatten_cons, List.flatten_nil, List.append_nil,
          List.length_append]
        push_cast
        omega
      have hfin := handleChunkSave_complete base id s bs T1 _ none hdir1 hcomp hsu
      have hfin2 := hfin.trans (if_pos rfl)
      have hrun : runAppends base id (r :: []) s
          = (handleChunkUpload.handleChunkSave base s id T1 bs).2 := hstep
      rw [hrun, hfin2]
      dsimp only
      refine ⟨?_, ?_, ?_, ?_⟩
      · simp only [finals_deleteRecord, deleteChunks_finals]
        rw [hT1id, hT1fid, hT1nm]
        simp [List.flatten_append]
      · rw [hT1id]
        exact getRecord_deleteRecord_self _ _
      · rw [getFile_deleteRecord, hT1ud, hT1fid, hT1lc]
        rw [deleteChunks_getFile_other _ _ _ _ (fun i h1 h2 => hartne i)]
        show getFile (writeFile _ (pyJoin (pyJoin base id) fid) (done ++ [bs]).flatten)
          (pyJoin (pyJoin base id) fid) = _
        rw [getFile_writeFile_self]
        simp [List.flatten_append]
      · intro i h1 h2
        rw [getFile_deleteRecord, hT1ud, hT1fid, hT1lc]
        refine deleteChunks_getFile_hit _ _ _ _ i h1 ?_
        simp only [List.length_cons, List.length_nil] at h2
        omega
    · -- an intermediate append: the upload is not yet complete
      set T1 : TemporaryUploadChunked :=
        if t.last_chunk = 0 then { t with upload_name := nm } else t with hT1def
      have hpos2 : 0 < bss2.flatten.length := goodSeq_pos hrest (by simp)
      have hsum1 : ((done.flatten.length : Int)) + (bs.length : Int)
          + (bss2.flatten.length : Int) = n := by
        simp only [List.flatten_cons, List.length_append] at hsum
        push_cast at hsum ⊢
        omega
      have hcnot : T1.offset + (bs.length : Int) ≠ T1.total_size := by
        rw [hT1off, hT1tot]
        omega
      have hdir1 : dirExists s (pyJoin base T1.upload_dir) = true := by
        rw [hT1ud]
        exact hdir
      have hstep2 := handleChunkSave_noncomplete base id s bs T1 hdir1 hT1cm hcnot
      have hcast : (((done ++ [bs]).flatten.length : Nat) : Int)
          = ((done.flatten.length : Int)) + (bs.length : Int) := by
        rw [List.flatten_append]
        simp only [List.flatten_cons, List.flatten_nil, List.append_nil,
          List.length_append]
        push_cast
        ring
      have hih := ih bss2 (done ++ [bs])
        (saveRecord (writeFile s (pyJoin base (pyJoin T1.upload_dir
            (chunkName T1.file_id (T1.last_chunk + 1)))) bs)
          { T1 with last_chunk := T1.last_chunk + 1,
                    offset := T1.offset + (bs.length : Int) })
        { T1 with last_chunk := T1.last_chunk + 1,
                  offset := T1.offset + (bs.length : Int) }
        (by rw [hcast]; exact hrest)
        (by simp)
        (by rw [hcast]; omega)
        (getRecord_saveRecord_of_id _ _ _ hT1id)
        hT1id hT1fid hT1ud
        (by dsimp only; rw [hT1tot])
        (by dsimp only; rw [hcast, hT1off])
        (by dsimp only; rw [hT1lc]; simp)
        (by dsimp only; rw [hT1cm])
        (fun _ => hT1nm)
        (by simp only [dirExists_saveRecord, dirExists_writeFile]; exact hdir)
        ?hfiles2
      case hfiles2 =>
        intro i hi
        simp only [List.length_append, List.length_cons, List.length_nil] at hi
        simp only [getFile_saveRecord, hT1ud, hT1fid, hT1lc]
        show getFile (writeFile s (pyJoin base (pyJoin id
            (chunkName fid (done.length + 1)))) bs)
          (pyJoin (pyJoin base id) (chunkName fid (i + 1)))
          = some ((done ++ [bs]).get ⟨i, by simp; omega⟩)
        rw [hwp]
        by_cases hil : i < done.length
        · rw [getFile_writeFile_ne s bs (hpathne (i + 1) (done.length + 1) (by omega)),
            hfiles i hil]
          congr 1
          rw [List.get_eq_getElem, List.get_eq_getElem,
            List.getElem_append_left (by omega : i < done.length)]
        · have hieq : i = done.length := by omega
          subst hieq
          rw [getFile_writeFile_self]
          congr 1
          rw [List.get_eq_getElem,
            List.getElem_append_right (by omega : done.length ≤ done.length)]
          simp
      have hrun : runAppends base id (r :: r2 :: rs2) s
          = runAppends base id (r2 :: rs2) (appendStep base id s r) := rfl
      rw [hrun, hstep, hstep2]
      dsimp only
      obtain ⟨hf1, hf2, hf3, hf4⟩ := hih
      refine ⟨?_, hf2, ?_, ?_⟩
      · rw [hf1]
        simp [List.flatten_append]
      · rw [hf3]
        simp [List.flatten_append]
      · intro i h1 h2
        refine hf4 i h1 ?_
        simp only [List.length_append, List.length_cons, List.length_nil] at h2 ⊢
        omega

/-- C1: for every upload created by a successful initiate whose declared
size parses to n > 0, followed by appendChunk calls whose claimed offsets
exactly track the cumulative bytes previously appended (non-empty bytes
payloads, constant declared size and name), once the cumulative length
reaches n: the final artifact row and its stored file hold exactly the
concatenation of all chunk payloads in submission order, the artifact's
size equals n, and afterwards the UploadRecord and every chunk blob for
the upload are deleted. -/
theorem C1_reassembly (base id fid nm ulenS fileObj : String) (n : Int) (s0 : FpState)
    (ops : List AppendReq) (bss : List Bytes)
    (hok : (handleNewChunkUpload base s0 fileObj (some ulenS) id fid).1 = .ok id)
    (hparse : pyInt ulenS = some n) (hpos : 0 < n)
    (hcid : id ≠ "") (hid1 : pyStartswith id "/" = false)
    (hfid1 : pyStartswith fid "/" = false)
    (habs : pyAbspath (pyJoin base id) = pyJoin base id)
    (hgs : GoodSeq n nm 0 ops bss)
    (hsum : (bss.flatten.length : Int) = n) :
    (runAppends base id ops
        (handleNewChunkUpload base s0 fileObj (some ulenS) id fid).2).finals
      = { upload_id := id, file_id := fid, upload_name := nm, data := bss.flatten }
        :: (handleNewChunkUpload base s0 fileObj (some ulenS) id fid).2.finals
    ∧ getRecord (runAppends base id ops
        (handleNewChunkUpload base s0 fileObj (some ulenS) id fid).2) id = none
    ∧ getFile (runAppends base id ops
        (handleNewChunkUpload base s0 fileObj (some ulenS) id fid).2)
        (pyJoin (pyJoin base id) fid) = some bss.flatten
    ∧ (bss.flatten.length : Int) = n
    ∧ (∀ i, 1 ≤ i → i ≤ ops.length →
        getFile (runAppends base id ops
          (handleNewChunkUpload base s0 fileObj (some ulenS) id fid).2)
          (pyJoin (pyJoin base id) (chunkName fid i)) = none) := by
  have hstate := initiate_success_state base s0 fileObj ulenS id fid n
    (handleNewChunkUpload base s0 fileObj (some ulenS) id fid).1
    (handleNewChunkUpload base s0 fileObj (some ulenS) id fid).2
    rfl hok hparse
  have hops : ops ≠ [] := by
    intro h
    subst h
    have hb := goodSeq_nil_bss hgs
    subst hb
    simp at hsum
    omega
  have hrec1 : getRecord (handleNewChunkUpload base s0 fileObj (some ulenS) id fid).2 id
      = some (initRecord id fid n) := by
    rw [hstate]
    exact getRecord_saveRecord_of_id _ _ _ rfl
  have hdir1 : dirExists (handleNewChunkUpload base s0 fileObj (some ulenS) id fid).2
      (pyJoin base id) = true := by
    rw [hstate]
    simp only [dirExists_saveRecord]
    rw [habs]
    simp [addDir, dirExists]
  have hmain := C1_loop base id fid nm n hcid hid1 hfid1 ops bss [] _
    (initRecord id fid n)
    (by exact hgs) hops (by simpa using hsum) hrec1 rfl rfl rfl rfl
    (by simp [initRecord]) rfl rfl (fun h => absurd rfl h) hdir1
    (fun i hi => absurd hi (Nat.not_lt_zero i))
  obtain ⟨h1, h2, h3, h4⟩ := hmain
  refine ⟨by simpa using h1, h2, by simpa using h3, hsum, ?_⟩
  intro i hi1 hi2
  have := h4 i hi1 (by simp only [List.length_nil]; omega)
  exact this

theorem C1_reassembly_witness :
    getFile (runAppends "/data" "u1"
        [⟨some "0", some "2", some "a", .bytes [7]⟩,
         ⟨some "1", some "2", some "a", .bytes [9]⟩]
        (handleNewChunkUpload "/data" exState0 "\x7b\x7d" (some "2") "u1" "f1").2)
      (pyJoin (pyJoin "/data" "u1") "f1") = some [7, 9] :=
  (C1_reassembly "/data" "u1" "f1" "a" "2" "\x7b\x7d" 2 exState0
    [⟨some "0", some "2", some "a", .bytes [7]⟩,
     ⟨some "1", some "2", some "a", .bytes [9]⟩]
    [[7], [9]]
    (by decide) (by decide) (by decide) (by decide) (by decide) (by decide) (by decide)
    (GoodSeq.cons 0 _ _ [7] [[9]] rfl (by decide)
      ⟨"0", rfl, by decide, by decide⟩ ⟨"2", rfl, by decide, by decide⟩ rfl (by decide)
      (GoodSeq.cons _ _ _ [9] [] rfl (by decide)
        ⟨"1", rfl, by decide, by decide⟩ ⟨"2", rfl, by decide, by decide⟩ rfl (by decide)
        (GoodSeq.nil _)))
    (by decide)).2.2.1
